import Mathlib

/-!
Verification of the LTI 1.1 test platform (`app.py`) and sample tool
(`sample_tool.py`).

Python strings are modelled as their UTF-8 byte sequences (`Bytes := List Nat`,
each entry one byte).  For ASCII data — which covers every protocol literal in
the repository — a string's byte sequence and its code-point sequence coincide,
and UTF-8 byte order agrees with Python's code-point string order, so
`sorted(...)` over parameter tuples is modelled faithfully by lexicographic
order on the byte lists.  `str.upper()` / `str.lower()` are modelled on the
ASCII range (the repository only applies them to HTTP methods and response
bodies).  Machine words inside SHA-1 are plain `Nat` reduced `% 2 ^ 32`.
-/

/-- Byte strings: a Python `str` is represented by its UTF-8 byte sequence,
a Python `bytes` by its byte sequence. -/
abbrev Bytes := List Nat

/-- The byte sequence of an ASCII Lean string literal (code points = bytes). -/
def ascii (s : String) : Bytes := s.data.map Char.toNat

/-- All bytes below 256 (a well-formed byte string). -/
abbrev ValidB (s : Bytes) : Prop := ∀ b ∈ s, b < 256

/-- All names and values are well-formed byte strings. -/
abbrev ValidParams (ps : List (List Nat × List Nat)) : Prop :=
  ∀ p ∈ ps, ValidB p.1 ∧ ValidB p.2

/-- Concatenation of the images of each element (Python `"".join(map f s))`. -/
def catMap (f : α → List β) : List α → List β
  | [] => []
  | a :: s => f a ++ catMap f s

/-- Python `sep.join(parts)` at byte level, for a one-byte separator. -/
def joinSep (sep : Nat) : List Bytes → Bytes
  | [] => []
  | [x] => x
  | x :: y :: xs => x ++ sep :: joinSep sep (y :: xs)

/-- `b` is kept literal by `urllib.parse.quote(..., safe='')`:
ASCII letters, digits, `_`, `.`, `-`, `~`. -/
def unreservedByte (b : Nat) : Bool :=
  (65 ≤ b ∧ b ≤ 90) ∨ (97 ≤ b ∧ b ≤ 122) ∨ (48 ≤ b ∧ b ≤ 57) ∨
    b = 45 ∨ b = 46 ∨ b = 95 ∨ b = 126

/-- Upper-case hexadecimal digit byte, as `urllib.parse.quote` emits (`%02X`). -/
def hexUpper (n : Nat) : Nat := if n < 10 then 48 + n else 55 + n

/-- Percent-encoding of a single byte per `urllib.parse.quote(..., safe='')`. -/
def pctEncodeByte (b : Nat) : Bytes :=
  if unreservedByte b then [b] else [37, hexUpper (b / 16), hexUpper (b % 16)]

/-- `urllib.parse.quote(s, safe='')`: percent-encode every byte of the UTF-8
encoding of `s` that is not unreserved. -/
def pyQuote (s : Bytes) : Bytes := catMap pctEncodeByte s

/-- ASCII upper-casing of one byte (`str.upper()` restricted to ASCII). -/
def upperByte (b : Nat) : Nat := if 97 ≤ b ∧ b ≤ 122 then b - 32 else b

/-- `str.upper()` on an ASCII string, at byte level. -/
def upperAscii (s : Bytes) : Bytes := s.map upperByte

/-- ASCII lower-casing of one byte (`str.lower()` restricted to ASCII). -/
def lowerByte (b : Nat) : Nat := if 65 ≤ b ∧ b ≤ 90 then b + 32 else b

/-- `str.lower()` on an ASCII string, at byte level. -/
def lowerAscii (s : Bytes) : Bytes := s.map lowerByte

/-- An OAuth/LTI parameter: (name, value), both strings. -/
abbrev Param := Bytes × Bytes

/-- Lexicographic byte-order comparison of two strings
(Python string `<=`, via the order-preservation of UTF-8). -/
def bytesLe : Bytes → Bytes → Bool
  | [], _ => true
  | _ :: _, [] => false
  | a :: s, b :: t => if a < b then true else if b < a then false else bytesLe s t

/-- Python tuple comparison `(k1, v1) <= (k2, v2)`: key first, then value. -/
def pairLe (p q : Param) : Bool :=
  if p.1 = q.1 then bytesLe p.2 q.2 else bytesLe p.1 q.1

/-- `sorted(params.items())`: ascending tuple order.  (Python's sort is stable,
but `pairLe` is antisymmetric, so any sorted permutation is the same list;
insertion sort is used to keep the definition kernel-computable.) -/
def sortParams (ps : List Param) : List Param :=
  List.insertionSort (fun p q => pairLe p q = true) ps

/-- One `key=value` fragment of the parameter string:
`quote(str(k), safe='') + "=" + quote(str(v), safe='')`. -/
def encPair (p : Param) : Bytes := pyQuote p.1 ++ 61 :: pyQuote p.2

/-- The OAuth parameter string: sorted `key=value` pairs joined with `&`
(`app.py` lines 219–227, identically `sample_tool.py` lines 37–43). -/
def paramString (ps : List Param) : Bytes :=
  joinSep 38 ((sortParams ps).map encPair)

/-- The OAuth signature base string
`"&".join([method.upper(), quote(url, safe=''), quote(param_string, safe='')])`
(`app.py` lines 230–234). -/
def signatureBase (method url : Bytes) (ps : List Param) : Bytes :=
  joinSep 38 [upperAscii method, pyQuote url, pyQuote (paramString ps)]

/-! ### SHA-1 and HMAC-SHA1 (the primitives `hashlib.sha1` / `hmac.new` used
by `generate_oauth_signature` and `verify_oauth_signature`).  Words are `Nat`
reduced modulo `2 ^ 32`. -/

/-- Left-rotation of a 32-bit word. -/
def rotl32 (k n : Nat) : Nat :=
  ((n <<< k) ||| (n >>> (32 - k))) % 4294967296

/-- Big-endian 32-bit words from a byte string (length a multiple of 4). -/
def words32 : Bytes → List Nat
  | b0 :: b1 :: b2 :: b3 :: rest =>
      (b0 * 16777216 + b1 * 65536 + b2 * 256 + b3) :: words32 rest
  | _ => []

/-- Big-endian bytes of a 32-bit word. -/
def word32Bytes (w : Nat) : Bytes :=
  [w >>> 24 % 256, w >>> 16 % 256, w >>> 8 % 256, w % 256]

/-- Big-endian 8-byte encoding of the bit length. -/
def beBytes8 (n : Nat) : Bytes :=
  [n >>> 56 % 256, n >>> 48 % 256, n >>> 40 % 256, n >>> 32 % 256,
   n >>> 24 % 256, n >>> 16 % 256, n >>> 8 % 256, n % 256]

/-- Number of zero bytes in SHA-1 padding after the `0x80` byte. -/
def sha1PadZeros (l : Nat) : Nat := (120 - (l + 1) % 64) % 64

/-- SHA-1 message padding. -/
def sha1Pad (msg : Bytes) : Bytes :=
  msg ++ 128 :: List.replicate (sha1PadZeros msg.length) 0 ++
    beBytes8 (msg.length * 8)

/-- Iterated application (structural, so that it reduces in the kernel). -/
def iterApp : Nat → (α → α) → α → α
  | 0, _, a => a
  | n + 1, f, a => iterApp n f (f a)

/-- One message-schedule extension step: append
`rotl1 (W[n-3] xor W[n-8] xor W[n-14] xor W[n-16])`. -/
def sha1ExtendStep (ws : List Nat) : List Nat :=
  ws ++ [rotl32 1 (ws.getD (ws.length - 3) 0 ^^^ ws.getD (ws.length - 8) 0 ^^^
    ws.getD (ws.length - 14) 0 ^^^ ws.getD (ws.length - 16) 0)]

/-- The 80-entry message schedule of one 64-byte block. -/
def sha1Ws (block : Bytes) : List Nat := iterApp 64 sha1ExtendStep (words32 block)

/-- SHA-1 internal state. -/
abbrev Sha1St := Nat × Nat × Nat × Nat × Nat

/-- Round function. -/
def sha1F (i b c d : Nat) : Nat :=
  if i < 20 then (b &&& c) ||| ((b ^^^ 4294967295) &&& d)
  else if i < 40 then b ^^^ c ^^^ d
  else if i < 60 then (b &&& c) ||| (b &&& d) ||| (c &&& d)
  else b ^^^ c ^^^ d

/-- Round constants. -/
def sha1K (i : Nat) : Nat :=
  if i < 20 then 1518500249
  else if i < 40 then 1859775393
  else if i < 60 then 2400959708
  else 3395469782

/-- The 80 rounds of one block. -/
def sha1Rounds (ws : List Nat) (st : Sha1St) : Sha1St :=
  ws.enum.foldl
    (fun s p =>
      match s, p with
      | (a, b, c, d, e), (i, w) =>
        ((rotl32 5 a + sha1F i b c d + e + sha1K i + w) % 4294967296,
          a, rotl32 30 b, c, d))
    st

/-- Compression of one 64-byte block into the chaining state. -/
def sha1Compress (st : Sha1St) (block : Bytes) : Sha1St :=
  match st, sha1Rounds (sha1Ws block) st with
  | (h0, h1, h2, h3, h4), (a, b, c, d, e) =>
    ((h0 + a) % 4294967296, (h1 + b) % 4294967296, (h2 + c) % 4294967296,
      (h3 + d) % 4294967296, (h4 + e) % 4294967296)

/-- Process `fuel` 64-byte blocks. -/
def sha1Blocks : Nat → Bytes → Sha1St → Sha1St
  | 0, _, st => st
  | n + 1, msg, st => sha1Blocks n (msg.drop 64) (sha1Compress st (msg.take 64))

/-- `hashlib.sha1(msg).digest()`: the 20-byte SHA-1 digest. -/
def sha1Bytes (msg : Bytes) : Bytes :=
  let padded := sha1Pad msg
  match sha1Blocks (padded.length / 64) padded
      (1732584193, 4023233417, 2562383102, 271733878, 3285377520) with
  | (h0, h1, h2, h3, h4) =>
    word32Bytes h0 ++ word32Bytes h1 ++ word32Bytes h2 ++ word32Bytes h3 ++
      word32Bytes h4

/-- `hmac.new(key, msg, hashlib.sha1).digest()`. -/
def hmacSha1 (key msg : Bytes) : Bytes :=
  let k0 := if 64 < key.length then sha1Bytes key else key
  let k1 := k0 ++ List.replicate (64 - k0.length) 0
  sha1Bytes ((k1.map (fun b => b ^^^ 92)) ++
    sha1Bytes ((k1.map (fun b => b ^^^ 54)) ++ msg))

/-- Byte value of a standard base64 alphabet index. -/
def b64Char (n : Nat) : Nat :=
  if n < 26 then 65 + n
  else if n < 52 then 71 + n
  else if n < 62 then n - 4
  else if n = 62 then 43
  else 47

/-- `base64.b64encode`. -/
def b64encode : Bytes → Bytes
  | [] => []
  | [a] => [b64Char (a / 4), b64Char (a % 4 * 16), 61, 61]
  | [a, b] => [b64Char (a / 4), b64Char (a % 4 * 16 + b / 16), b64Char (b % 16 * 4), 61]
  | a :: b :: c :: rest =>
      b64Char (a / 4) :: b64Char (a % 4 * 16 + b / 16) ::
        b64Char (b % 16 * 4 + c / 64) :: b64Char (c % 64) :: b64encode rest

/-- Base64 value of an alphabet byte (`None` for a byte outside the alphabet,
including the padding byte `=`). -/
def b64Val (c : Nat) : Option Nat :=
  if 65 ≤ c ∧ c ≤ 90 then some (c - 65)
  else if 97 ≤ c ∧ c ≤ 122 then some (c - 71)
  else if 48 ≤ c ∧ c ≤ 57 then some (c + 4)
  else if c = 43 then some 62
  else if c = 47 then some 63
  else none

/-- The state machine of CPython's `binascii.a2b_base64` in its non-strict
mode (the default used by `base64.b64decode(..., validate=False)` and hence by
`receive_outcome`): bytes outside the alphabet are skipped; a padding byte `=`
is ignored before two data bytes of the current quad, counted afterwards, and
a completed pad sequence (`quad_pos + pads = 4`) ends decoding successfully,
discarding the rest of the input; input ending inside a quad raises
`binascii.Error` (`none`).  State: remaining input, position in the current
quad (0–3), the pending bits (`leftchar`), the pad count, the output bytes.
(The pre-3.11 lookahead formulation of the pad rule computes the same
function.) -/
def a2bB64Go : Bytes → Nat → Nat → Nat → Bytes → Option Bytes
  | [], quadPos, _, _, out => if quadPos = 0 then some out else none
  | c :: rest, quadPos, leftchar, pads, out =>
      if c = 61 then
        if 2 ≤ quadPos then
          if 4 ≤ quadPos + (pads + 1) then some out
          else a2bB64Go rest quadPos leftchar (pads + 1) out
        else a2bB64Go rest quadPos leftchar pads out
      else
        match b64Val c with
        | none => a2bB64Go rest quadPos leftchar pads out
        | some v =>
          match quadPos with
          | 0 => a2bB64Go rest 1 v 0 out
          | 1 => a2bB64Go rest 2 (v % 16) 0 (out ++ [leftchar * 4 + v / 16])
          | 2 => a2bB64Go rest 3 (v % 4) 0 (out ++ [leftchar * 16 + v / 4])
          | _ => a2bB64Go rest 0 0 0 (out ++ [leftchar * 64 + v])

/-- `base64.b64decode` on a bytes value (`validate=False`):
`binascii.a2b_base64` in non-strict mode.  `none` models `binascii.Error`. -/
def b64decode (s : Bytes) : Option Bytes := a2bB64Go s 0 0 0 []

/-- `base64.b64decode` applied to a `str`: Python first ASCII-encodes it
(raising on non-ASCII characters). -/
def b64decodeStr (s : Bytes) : Option Bytes :=
  if s.all (fun b => b < 128) then b64decode s else none

/-- UTF-8 continuation byte. -/
def contB (b : Nat) : Bool := 128 ≤ b ∧ b ≤ 191

/-- Strict UTF-8 validity of a byte string, as checked by
`bytes.decode('utf-8')` (surrogates excluded). -/
def isValidUtf8 : Bytes → Bool
  | [] => true
  | b :: rest =>
    if b < 128 then isValidUtf8 rest
    else
      match rest with
      | [] => false
      | c1 :: r1 =>
        if 194 ≤ b ∧ b ≤ 223 then contB c1 && isValidUtf8 r1
        else
          match r1 with
          | [] => false
          | c2 :: r2 =>
            if b = 224 then (decide (160 ≤ c1 ∧ c1 ≤ 191)) && contB c2 && isValidUtf8 r2
            else if (225 ≤ b ∧ b ≤ 236) ∨ b = 238 ∨ b = 239 then
              contB c1 && contB c2 && isValidUtf8 r2
            else if b = 237 then (decide (128 ≤ c1 ∧ c1 ≤ 159)) && contB c2 && isValidUtf8 r2
            else
              match r2 with
              | [] => false
              | c3 :: r3 =>
                if b = 240 then
                  (decide (144 ≤ c1 ∧ c1 ≤ 191)) && contB c2 && contB c3 && isValidUtf8 r3
                else if 241 ≤ b ∧ b ≤ 243 then
                  contB c1 && contB c2 && contB c3 && isValidUtf8 r3
                else if b = 244 then
                  (decide (128 ≤ c1 ∧ c1 ≤ 143)) && contB c2 && contB c3 && isValidUtf8 r3
                else false

/-- `bytes.decode('utf-8')`: in the byte-sequence model of strings the decoded
text has the same bytes; invalid UTF-8 raises `UnicodeDecodeError` (`none`). -/
def utf8Decode (s : Bytes) : Option Bytes :=
  if isValidUtf8 s then some s else none

/-- `str.split(c)` for a one-byte separator: split at every occurrence,
keeping empty fields. -/
def splitOnByte (sep : Nat) : Bytes → List Bytes
  | [] => [[]]
  | b :: r =>
      if b = sep then [] :: splitOnByte sep r
      else
        match splitOnByte sep r with
        | t :: ts => (b :: t) :: ts
        | [] => [[b]]

/-- The sourced-id encoding built by `build_lti_launch_params`
(`app.py` lines 280–282):
`base64.b64encode(f"{course['id']}:{resource_link_id}:{user['id']}".encode())`. -/
def encodeSourcedId (courseId resourceLinkId userId : Bytes) : Bytes :=
  b64encode (courseId ++ 58 :: resourceLinkId ++ 58 :: userId)

/-- The sourced-id decoding performed by `receive_outcome`
(`app.py` lines 2005–2009): `base64.b64decode(sourced_id).decode()`, split on
`:`, requiring exactly three fields.  `none` models any exception (caught by
the handler) or a field count other than three. -/
def decodeSourcedId (sourcedId : Bytes) : Option (Bytes × Bytes × Bytes) :=
  match b64decodeStr sourcedId with
  | none => none
  | some raw =>
    match utf8Decode raw with
    | none => none
    | some text =>
      match splitOnByte 58 text with
      | [c, r, u] => some (c, r, u)
      | _ => none

/-- `generate_oauth_signature(method, url, params, consumer_secret)`
(`app.py` lines 217–254): base64 of the HMAC-SHA1 of the signature base string
under the signing key `quote(consumer_secret, safe='') + "&"`. -/
def generate_oauth_signature (method url : Bytes) (params : List Param)
    (consumerSecret : Bytes) : Bytes :=
  b64encode (hmacSha1 (pyQuote consumerSecret ++ [38])
    (signatureBase method url params))

/-- `verify_oauth_signature(method, url, params, consumer_secret,
received_signature)` (`sample_tool.py` lines 34–60): drop `oauth_signature`,
recompute the expected signature by the same pipeline as
`generate_oauth_signature`, and compare (`hmac.compare_digest`, which on equal
inputs returns exactly string equality). -/
def verify_oauth_signature (method url : Bytes) (params : List Param)
    (consumerSecret receivedSignature : Bytes) : Bool :=
  let verifyParams := params.filter (fun p => decide (p.1 ≠ ascii "oauth_signature"))
  decide (generate_oauth_signature method url verifyParams consumerSecret =
    receivedSignature)

/-! ### Launch Parameter Builder (`build_lti_launch_params`, `app.py` 257–349).

Python dicts preserve insertion order; assignment updates an existing key in
place and otherwise appends.  The impure inputs `timestamp` (wall clock) and
`nonce` (random UUID) are passed explicitly.  Integer ids (`course['id']`,
`user['id']`) are represented by their decimal strings, which is exactly how
the function consumes them (f-string interpolation and `str(...)`). -/

/-- Python dict assignment `d[k] = v` on an insertion-ordered pair list. -/
def dictSet : List Param → Bytes → Bytes → List Param
  | [], k, v => [(k, v)]
  | p :: ps, k, v => if p.1 = k then (k, v) :: ps else p :: dictSet ps k v

/-- Python dict lookup `d.get(k)` on an insertion-ordered pair list. -/
def dictGet (ps : List Param) (k : Bytes) : Option Bytes :=
  (ps.find? (fun p => decide (p.1 = k))).map (fun p => p.2)

/-- Python whitespace bytes recognised by `str.split()` in the ASCII range. -/
def wsByte (b : Nat) : Bool :=
  b = 9 ∨ b = 10 ∨ b = 11 ∨ b = 12 ∨ b = 13 ∨ b = 28 ∨ b = 29 ∨ b = 30 ∨
    b = 31 ∨ b = 32

/-- Longest non-whitespace run at the front. -/
def takeTok : Bytes → Bytes
  | [] => []
  | b :: r => if wsByte b then [] else b :: takeTok r

/-- Remainder after the front non-whitespace run. -/
def dropTok : Bytes → Bytes
  | [] => []
  | b :: r => if wsByte b then b :: r else dropTok r

/-- Fuelled worker for `str.split()`. -/
def splitWsF : Nat → Bytes → List Bytes
  | 0, _ => []
  | _ + 1, [] => []
  | n + 1, b :: r =>
      if wsByte b then splitWsF n r
      else (b :: takeTok r) :: splitWsF n (dropTok r)

/-- `str.split()` with no argument: split on whitespace runs, no empty
tokens. -/
def pySplitWs (s : Bytes) : List Bytes := splitWsF s.length s

structure Tool where
  consumerKey : Bytes
  consumerSecret : Bytes

structure Course where
  id : Bytes
  code : Bytes
  name : Bytes

structure User where
  id : Bytes
  name : Bytes
  email : Bytes
  role : Bytes

/-- Key under which a custom parameter is merged (`app.py` line 342):
prefix `custom_` unless the key already starts with it. -/
def customKey (k : Bytes) : Bytes :=
  if (ascii "custom_").isPrefixOf k then k else ascii "custom_" ++ k

/-- The fixed parameter dict assembled by `build_lti_launch_params`
(`app.py` lines 292–337), in source order, before custom parameters are
merged.  `firstTok`/`restToks` are the whitespace tokens of `user.name`
(nonempty by the caller's case split). -/
def fixedParams (tool : Tool) (course : Course) (user : User)
    (resourceLinkId resourceLinkTitle outcomesUrl : Bytes)
    (timestamp nonce : Bytes) (firstTok : Bytes) (restToks : List Bytes) :
    List Param :=
  [(ascii "lti_message_type", ascii "basic-lti-launch-request"),
   (ascii "lti_version", ascii "LTI-1p0"),
   (ascii "oauth_consumer_key", tool.consumerKey),
   (ascii "oauth_signature_method", ascii "HMAC-SHA1"),
   (ascii "oauth_timestamp", timestamp),
   (ascii "oauth_nonce", nonce),
   (ascii "oauth_version", ascii "1.0"),
   (ascii "oauth_callback", ascii "about:blank"),
   (ascii "resource_link_id", resourceLinkId),
   (ascii "resource_link_title", resourceLinkTitle),
   (ascii "context_id", course.id),
   (ascii "context_label", course.code),
   (ascii "context_title", course.name),
   (ascii "context_type", ascii "CourseSection"),
   (ascii "user_id", user.id),
   (ascii "lis_person_name_given", firstTok),
   (ascii "lis_person_name_family",
     if joinSep 32 restToks = [] then user.name else joinSep 32 restToks),
   (ascii "lis_person_name_full", user.name),
   (ascii "lis_person_contact_email_primary", user.email),
   (ascii "roles", if user.role = ascii "teacher" then ascii "Instructor"
     else ascii "Learner"),
   (ascii "lis_outcome_service_url", outcomesUrl),
   (ascii "lis_result_sourcedid",
     encodeSourcedId course.id resourceLinkId user.id),
   (ascii "launch_presentation_locale", ascii "en-US"),
   (ascii "launch_presentation_document_target", ascii "iframe"),
   (ascii "tool_consumer_instance_guid", ascii "lti-test-platform.local"),
   (ascii "tool_consumer_instance_name", ascii "LTI Test Platform"),
   (ascii "tool_consumer_instance_description",
     ascii "Local LTI 1.1 Testing Environment"),
   (ascii "tool_consumer_info_product_family_code", ascii "lti-test-platform"),
   (ascii "tool_consumer_info_version", ascii "1.0")]

/-- The parameter names of `fixedParams`, for frame statements. -/
def fixedParamKeys : List Bytes :=
  [ascii "lti_message_type", ascii "lti_version", ascii "oauth_consumer_key",
   ascii "oauth_signature_method", ascii "oauth_timestamp", ascii "oauth_nonce",
   ascii "oauth_version", ascii "oauth_callback", ascii "resource_link_id",
   ascii "resource_link_title", ascii "context_id", ascii "context_label",
   ascii "context_title", ascii "context_type", ascii "user_id",
   ascii "lis_person_name_given", ascii "lis_person_name_family",
   ascii "lis_person_name_full", ascii "lis_person_contact_email_primary",
   ascii "roles", ascii "lis_outcome_service_url", ascii "lis_result_sourcedid",
   ascii "launch_presentation_locale",
   ascii "launch_presentation_document_target",
   ascii "tool_consumer_instance_guid", ascii "tool_consumer_instance_name",
   ascii "tool_consumer_instance_description",
   ascii "tool_consumer_info_product_family_code",
   ascii "tool_consumer_info_version"]

/-- `build_lti_launch_params` (`app.py` 257–349).  `Except.error ()` models the
uncaught `IndexError` raised by `user['name'].split()[0]` when the name has no
whitespace-delimited token; there is no other failure path in the function. -/
def build_lti_launch_params (tool : Tool) (course : Course) (user : User)
    (resourceLinkId resourceLinkTitle launchUrl outcomesUrl : Bytes)
    (customParams : List Param) (timestamp nonce : Bytes) :
    Except Unit (List Param) :=
  match pySplitWs user.name with
  | [] => .error ()
  | t :: ts =>
    let base := fixedParams tool course user resourceLinkId resourceLinkTitle
      outcomesUrl timestamp nonce t ts
    let merged := customParams.foldl
      (fun ps kv => dictSet ps (customKey kv.1) kv.2) base
    let signature := generate_oauth_signature (ascii "POST") launchUrl merged
      tool.consumerSecret
    .ok (dictSet merged (ascii "oauth_signature") signature)

/-! ### Outcomes Server Handler (`receive_outcome`, `app.py` 1982–2054). -/

/-- Byte-wise equality of a pattern with the start of a string. -/
def startsW : Bytes → Bytes → Bool
  | [], _ => true
  | _ :: _, [] => false
  | p :: ps, b :: bs => decide (p = b) && startsW ps bs

/-- Longest front run of bytes other than `<` (60). -/
def takeNonLt : Bytes → Bytes
  | [] => []
  | b :: r => if b = 60 then [] else b :: takeNonLt r

/-- `re.search(r'<tag>([^<]+)</tag>', body)`: the leftmost position where the
opening tag is followed by a nonempty `<`-free run and then the closing tag;
the captured group.  `[^<]+` is greedy but cannot cross a `<`, so the run is
exactly the maximal `<`-free run after the opening tag. -/
def extractTag (openT closeT : Bytes) : Bytes → Option Bytes
  | [] => none
  | b :: rest =>
      if startsW openT (b :: rest) then
        let run := takeNonLt ((b :: rest).drop openT.length)
        if run ≠ [] ∧
            startsW closeT ((b :: rest).drop (openT.length + run.length)) then
          some run
        else extractTag openT closeT rest
      else extractTag openT closeT rest

/-- Digit byte. -/
def digitB (b : Nat) : Bool := 48 ≤ b ∧ b ≤ 57

/-- After one digit: further digits, with single underscores allowed only
between digits (Python numeric-literal grouping). -/
def digRun : Bytes → Option Bytes
  | [] => some []
  | b :: rest =>
      if digitB b then digRun rest
      else if b = 95 then
        match rest with
        | c :: r => if digitB c then digRun r else none
        | [] => none
      else some (b :: rest)

/-- A digit group `d (('_')? d)*`: the remainder on success. -/
def digGroup : Bytes → Option Bytes
  | [] => none
  | b :: rest => if digitB b then digRun rest else none

/-- Case-insensitive ASCII match of a whole literal. -/
def matchCI (lit s : Bytes) : Bool := decide (s.map lowerByte = lit)

/-- Optional exponent `e|E (sign)? digits`, then end of string. -/
def floatExp : Bytes → Bool
  | [] => true
  | b :: r =>
    if b = 101 ∨ b = 69 then
      match r with
      | 43 :: r2 => (digGroup r2).isSome && (digGroup r2).getD [] = []
      | 45 :: r2 => (digGroup r2).isSome && (digGroup r2).getD [] = []
      | _ => (digGroup r).isSome && (digGroup r).getD [] = []
    else false

/-- After the integer digits: optional `.` with optional digits, then
exponent or end. -/
def floatFrac : Bytes → Bool
  | [] => true
  | 46 :: r =>
    (match digGroup r with
     | some rest => floatExp rest
     | none => floatExp r)
  | s => floatExp s

/-- The part of a Python float literal after the optional sign:
`inf`, `infinity`, `nan` (case-insensitive), or digits with an optional
fractional part and optional exponent. -/
def floatBody (s : Bytes) : Bool :=
  matchCI (ascii "inf") s || matchCI (ascii "infinity") s ||
    matchCI (ascii "nan") s ||
    (match digGroup s with
     | some rest => floatFrac rest
     | none =>
       match s with
       | 46 :: r =>
         match digGroup r with
         | some rest => floatExp rest
         | none => false
       | _ => false)

/-- `float(s)` succeeds: optional surrounding whitespace, optional sign, then
a float body reaching the end of the string.  (The numeric value itself is
binary floating point and is not modelled; no claim observes it.) -/
def pyFloatAccepts (s : Bytes) : Bool :=
  let core := (s.dropWhile wsByte).reverse.dropWhile wsByte |>.reverse
  match core with
  | 43 :: r => floatBody r
  | 45 :: r => floatBody r
  | r => floatBody r

/-- SQLite whitespace (`sqlite3Isspace`), skipped around numeric literals. -/
def sqliteWs (b : Nat) : Bool :=
  b = 9 ∨ b = 10 ∨ b = 11 ∨ b = 12 ∨ b = 13 ∨ b = 32

/-- Value of a decimal digit run. -/
def digitsVal (ds : Bytes) : Nat := ds.foldl (fun acc d => acc * 10 + (d - 48)) 0

/-- The exact rational value of a well-formed SQLite numeric literal
(`sqlite3AtoF` grammar: optional whitespace, optional sign, digits with an
optional decimal point and fraction, an optional `e`/`E` exponent with
optional sign and mandatory digits, optional trailing whitespace, at least
one mantissa digit, nothing else); `none` when the text is not a well-formed
number and therefore keeps TEXT affinity. -/
def sqliteNumValue (s : Bytes) : Option ℚ :=
  let s1 := s.dropWhile sqliteWs
  let sgnAndRest : ℚ × Bytes :=
    match s1 with
    | 43 :: r => (1, r)
    | 45 :: r => (-1, r)
    | r => (1, r)
  let s2 := sgnAndRest.2
  let intDs := s2.takeWhile digitB
  let s3 := s2.dropWhile digitB
  let fracAndRest : Bytes × Bytes :=
    match s3 with
    | 46 :: r => (r.takeWhile digitB, r.dropWhile digitB)
    | r => ([], r)
  let fracDs := fracAndRest.1
  let expAndRest : Bool × ℤ × Bytes :=
    match fracAndRest.2 with
    | 101 :: r =>
      (match r with
       | 43 :: rr =>
         if rr.takeWhile digitB = [] then (false, 0, rr)
         else (true, (digitsVal (rr.takeWhile digitB) : ℤ), rr.dropWhile digitB)
       | 45 :: rr =>
         if rr.takeWhile digitB = [] then (false, 0, rr)
         else (true, -(digitsVal (rr.takeWhile digitB) : ℤ), rr.dropWhile digitB)
       | rr =>
         if rr.takeWhile digitB = [] then (false, 0, rr)
         else (true, (digitsVal (rr.takeWhile digitB) : ℤ), rr.dropWhile digitB))
    | 69 :: r =>
      (match r with
       | 43 :: rr =>
         if rr.takeWhile digitB = [] then (false, 0, rr)
         else (true, (digitsVal (rr.takeWhile digitB) : ℤ), rr.dropWhile digitB)
       | 45 :: rr =>
         if rr.takeWhile digitB = [] then (false, 0, rr)
         else (true, -(digitsVal (rr.takeWhile digitB) : ℤ), rr.dropWhile digitB)
       | rr =>
         if rr.takeWhile digitB = [] then (false, 0, rr)
         else (true, (digitsVal (rr.takeWhile digitB) : ℤ), rr.dropWhile digitB))
    | r => (true, 0, r)
  let s6 := expAndRest.2.2.dropWhile sqliteWs
  if expAndRest.1 ∧ s6 = [] ∧ 1 ≤ intDs.length + fracDs.length then
    some (sgnAndRest.1 * ((digitsVal (intDs ++ fracDs) : ℚ) / (10 : ℚ) ^ fracDs.length)
      * (10 : ℚ) ^ expAndRest.2.1)
  else none

/-- SQLite comparison of the stored INTEGER `course_id` column against a bound
text operand: numeric affinity converts the text when it is a well-formed
number, and the comparison succeeds when the values are equal.  The value
equality is computed exactly over `ℚ`; SQLite converts real-form literals
through an IEEE double, whose sub-ulp rounding (not modelled — floating point
is outside the embedding) can additionally equate literals within half an ulp
of the integer.  The C4 theorem therefore assumes the 1-distant margin
`courseFarFrom`, which is sound under that rounding. -/
def sqliteCourseEq (n : Nat) (s : Bytes) : Bool :=
  match sqliteNumValue s with
  | some q => decide (q = (n : ℚ))
  | none => false

/-- A no-match condition robust to SQLite numeric affinity: the text is not a
well-formed number, or the stored id is below `2 ^ 52` and the text's exact
value is at least `1` away from it.  Double conversion of a literal moves its
value by at most half an ulp, below `1/2` at such magnitudes, so this implies
the SQL comparison fails. -/
def courseFarFrom (n : Nat) (s : Bytes) : Bool :=
  match sqliteNumValue s with
  | some q => decide (n < 4503599627370496 ∧ 1 ≤ |q - (n : ℚ)|)
  | none => true

/-- A stored `course_tools` row, as far as `receive_outcome` consults it.
`courseId` is the INTEGER `course_id` column (rows are created by the
platform from `courses.id` AUTOINCREMENT values). -/
structure CourseTool where
  id : Nat
  courseId : Nat
  resourceLinkId : Bytes

/-- A row inserted into `grade_results`.  The `score` column holds the float
parsed from `textString`; it is represented here by the accepted literal text
(no claim observes the numeric value). -/
structure GradeRow where
  courseToolId : Nat
  userId : Bytes
  sourcedId : Bytes
  scoreText : Bytes
  rawXml : Bytes

/-- The success POX response of `receive_outcome` before the first message-id
interpolation (`app.py` 2034–2052). -/
def respPartA : Bytes := ascii
  "<?xml version=\"1.0\" encoding=\"UTF-8\"?>\n<imsx_POXEnvelopeResponse xmlns=\"http://www.imsglobal.org/services/ltiv1p1/xsd/imsoms_v1p0\">\n  <imsx_POXHeader>\n    <imsx_POXResponseHeaderInfo>\n      <imsx_version>V1.0</imsx_version>\n      <imsx_messageIdentifier>"

/-- The response text between the two message-id interpolations. -/
def respPartB : Bytes := ascii
  "</imsx_messageIdentifier>\n      <imsx_statusInfo>\n        <imsx_codeMajor>success</imsx_codeMajor>\n        <imsx_severity>status</imsx_severity>\n        <imsx_description>Score received</imsx_description>\n        <imsx_messageRefIdentifier>"

/-- The response text after the second message-id interpolation. -/
def respPartC : Bytes := ascii
  "</imsx_messageRefIdentifier>\n        <imsx_operationRefIdentifier>replaceResult</imsx_operationRefIdentifier>\n      </imsx_statusInfo>\n    </imsx_POXResponseHeaderInfo>\n  </imsx_POXHeader>\n  <imsx_POXBody>\n    <replaceResultResponse/>\n  </imsx_POXBody>\n</imsx_POXEnvelopeResponse>"

/-- The success-shaped POX response with the message id interpolated twice
(as `imsx_messageIdentifier` and as `imsx_messageRefIdentifier`). -/
def successResponse (msgId : Bytes) : Bytes :=
  respPartA ++ msgId ++ respPartB ++ msgId ++ respPartC

/-- First `course_tools` row with the given course id and resource link id
(`SELECT id FROM course_tools WHERE course_id = ? AND resource_link_id = ?`
followed by `fetchone()`).  Both parameters are bound as text: the INTEGER
`course_id` column compares under numeric affinity (`sqliteCourseEq`), the
TEXT `resource_link_id` column by bytes under the BINARY collation. -/
def findCourseTool (cts : List CourseTool) (c r : Bytes) : Option CourseTool :=
  cts.find? (fun ct => sqliteCourseEq ct.courseId c && decide (ct.resourceLinkId = r))

/-- The record-resolution and response step of `receive_outcome`
(`app.py` 2003–2054): inside the handler's `try`, any decode failure or
missing association drops the event; the same success response is returned in
every case. -/
def receiveCore (cts : List CourseTool) (body : Bytes)
    (sourcedId? scoreText? : Option Bytes) (msgId : Bytes) :
    Option GradeRow × Bytes :=
  let row :=
    match sourcedId?, scoreText? with
    | some sid, some st =>
      (match decodeSourcedId sid with
       | some (c, r, u) =>
         (match findCourseTool cts c r with
          | some ct => some ⟨ct.id, u, sid, st, body⟩
          | none => none)
       | none => none)
    | _, _ => none
  (row, successResponse msgId)

/-- `receive_outcome` (`app.py` 1982–2054) as a function of the stored
`course_tools` rows, a fresh UUID string (used only when the request carries
no `imsx_messageIdentifier`), and the raw request body.

`Except.error ()` models an exception escaping the endpoint (HTTP 500): the
body not decoding as UTF-8, or `float(score_match.group(1))` raising
`ValueError` — both happen outside the handler's `try` block.  On success the
result is the optional inserted `grade_results` row and the response body. -/
def receive_outcome (cts : List CourseTool) (freshId : Bytes) (body : Bytes) :
    Except Unit (Option GradeRow × Bytes) :=
  if isValidUtf8 body then
    let sourcedId? := extractTag (ascii "<sourcedId>") (ascii "</sourcedId>") body
    let scoreText? := extractTag (ascii "<textString>") (ascii "</textString>") body
    let msgId := (extractTag (ascii "<imsx_messageIdentifier>")
      (ascii "</imsx_messageIdentifier>") body).getD freshId
    match scoreText? with
    | some t =>
      if pyFloatAccepts t then .ok (receiveCore cts body sourcedId? (some t) msgId)
      else .error ()
    | none => .ok (receiveCore cts body sourcedId? none msgId)
  else .error ()

/-! ### Outcomes Client (`send_grade`, `sample_tool.py` 310–419). -/

/-- Python `pat in s` on strings: substring containment. -/
def hasSubstr (pat : Bytes) : Bytes → Bool
  | [] => pat.isEmpty
  | b :: rest => startsW pat (b :: rest) || hasSubstr pat rest

/-- The HTTP response of the single grade-push POST. -/
structure HttpResponse where
  status : Nat
  text : Bytes

/-- The network outcome of `client.post(outcomes_url, ...)`: a response, or an
exception described by `str(e)`. -/
abbrev PostOutcome := Except Bytes HttpResponse

/-- The result of `send_grade`'s network section (`sample_tool.py` 352–419),
as a function of the outcome of its single POST (the call is issued exactly
once; there is no retry loop).

An exception from the POST is re-raised as
`HTTPException(500, "Failed to send grade: " + str(e))` — a typed failure the
framework turns into an error response — modelled as `Except.error` carrying
the detail text.  Otherwise the rendered page reports
`success = (status == 200 and 'success' in response.text.lower())` and always
embeds the raw `response.text`; this pair is the `Except.ok` payload. -/
def send_grade (postOutcome : PostOutcome) : Except Bytes (Bool × Bytes) :=
  match postOutcome with
  | .error e => .error (ascii "Failed to send grade: " ++ e)
  | .ok resp =>
      .ok (decide (resp.status = 200) &&
        hasSubstr (ascii "success") (lowerAscii resp.text), resp.text)

/-- An internal byte mismatch between a pattern and the visible part of a
string (conservative: independent of any continuation). -/
def mismatchInside : Bytes → Bytes → Bool
  | p :: ps, b :: bs => decide (p ≠ b) || mismatchInside ps bs
  | _, _ => false

/-- Every suffix of `t` mismatches the pattern within `t` itself. -/
def cleanPre (pat : Bytes) : Bytes → Bool
  | [] => true
  | b :: rest => mismatchInside pat (b :: rest) && cleanPre pat rest

/-- The text of `respPartB` before its trailing
`<imsx_messageRefIdentifier>` opening tag. -/
def respPartB1 : Bytes := ascii
  "</imsx_messageIdentifier>\n      <imsx_statusInfo>\n        <imsx_codeMajor>success</imsx_codeMajor>\n        <imsx_severity>status</imsx_severity>\n        <imsx_description>Score received</imsx_description>\n        "

/-- The text of `respPartC` after its leading
`</imsx_messageRefIdentifier>` closing tag. -/
def respPartC1 : Bytes := ascii
  "\n        <imsx_operationRefIdentifier>replaceResult</imsx_operationRefIdentifier>\n      </imsx_statusInfo>\n    </imsx_POXResponseHeaderInfo>\n  </imsx_POXHeader>\n  <imsx_POXBody>\n    <replaceResultResponse/>\n  </imsx_POXBody>\n</imsx_POXEnvelopeResponse>"

/-- The text of `respPartB` before its `<imsx_codeMajor>` element. -/
def respPartB2 : Bytes := ascii
  "</imsx_messageIdentifier>\n      <imsx_statusInfo>\n        "

/-- The text of `respPartB` after its `</imsx_codeMajor>` closing tag. -/
def respPartB3 : Bytes := ascii
  "\n        <imsx_severity>status</imsx_severity>\n        <imsx_description>Score received</imsx_description>\n        <imsx_messageRefIdentifier>"

deriving instance DecidableEq for Except

deriving instance DecidableEq for GradeRow

/-- Modelled from the spec (section 4.1), for refinement comparison only:
"Sort parameters by encoded key then encoded value, ascending byte order" —
the sort key is the percent-encoded pair, unlike the source's raw-pair sort. -/
def specParamString (ps : List Param) : Bytes :=
  joinSep 38 ((List.insertionSort
    (fun p q => pairLe (pyQuote p.1, pyQuote p.2) (pyQuote q.1, pyQuote q.2) = true)
    ps).map encPair)

/-! ## Theorems -/

/-- Python dict union with a fresh key is list append. -/
theorem dictSet_eq_append {P : List Param} {k : Bytes} (v : Bytes)
    (h : ∀ p ∈ P, p.1 ≠ k) : dictSet P k v = P ++ [(k, v)] := by
  induction P with
  | nil => rfl
  | cons p ps ih =>
      have hp : p.1 ≠ k := h p (by simp)
      simp only [dictSet, if_neg hp, List.cons_append, List.cons.injEq, true_and]
      exact ih (fun q hq => h q (by simp [hq]))

/-- Dropping the `oauth_signature` entry from `P ∪ {oauth_signature: s}`
recovers `P` when `P` itself has no such key. -/
theorem filter_drop_signature {P : List Param} {s : Bytes}
    (h : ∀ p ∈ P, p.1 ≠ ascii "oauth_signature") :
    (P ++ [(ascii "oauth_signature", s)]).filter
      (fun p => decide (p.1 ≠ ascii "oauth_signature")) = P := by
  rw [List.filter_append]
  have h1 : P.filter (fun p => decide (p.1 ≠ ascii "oauth_signature")) = P :=
    List.filter_eq_self.mpr (fun a ha => by simpa using h a ha)
  simp only [h1, List.filter_cons, List.filter_nil]
  simp

/-- C1.  For every parameter mapping `P` without an `oauth_signature` key,
signing `(method, url, P)` and adding the signature under `oauth_signature`
yields a mapping that `verify_oauth_signature` accepts with that signature. -/
theorem oauth_sign_verify_roundtrip (method url : Bytes) (P : List Param)
    (secret : Bytes) (hP : ∀ p ∈ P, p.1 ≠ ascii "oauth_signature") :
    verify_oauth_signature method url
      (dictSet P (ascii "oauth_signature")
        (generate_oauth_signature method url P secret))
      secret (generate_oauth_signature method url P secret) = true := by
  rw [dictSet_eq_append _ hP]
  unfold verify_oauth_signature
  rw [filter_drop_signature hP]
  simp

/-- Witness for C1 at a concrete launch parameter mapping. -/
theorem oauth_sign_verify_roundtrip_witness :
    verify_oauth_signature (ascii "POST") (ascii "http://127.0.0.1:8080/lti/launch")
      (dictSet [(ascii "user_id", ascii "7"), (ascii "roles", ascii "Learner")]
        (ascii "oauth_signature")
        (generate_oauth_signature (ascii "POST")
          (ascii "http://127.0.0.1:8080/lti/launch")
          [(ascii "user_id", ascii "7"), (ascii "roles", ascii "Learner")]
          (ascii "test_secret")))
      (ascii "test_secret")
      (generate_oauth_signature (ascii "POST")
        (ascii "http://127.0.0.1:8080/lti/launch")
        [(ascii "user_id", ascii "7"), (ascii "roles", ascii "Learner")]
        (ascii "test_secret")) = true :=
  oauth_sign_verify_roundtrip _ _ _ _ (by decide)

/-- Base64 alphabet indices decode back to themselves. -/
theorem b64Val_b64Char : ∀ n < 64, b64Val (b64Char n) = some n := by decide

/-- No alphabet byte is the padding byte. -/
theorem b64Char_ne_61 (n : Nat) : b64Char n ≠ 61 := by
  unfold b64Char
  split
  · omega
  split
  · omega
  split
  · omega
  split <;> omega

/-- Alphabet bytes are ASCII. -/
theorem b64Char_lt128 (n : Nat) : b64Char n < 128 := by
  unfold b64Char
  split
  · omega
  split
  · omega
  split
  · omega
  split <;> omega

/-- Every byte of a base64 encoding is an alphabet byte or padding. -/
theorem b64encode_mem : ∀ x : Bytes, ∀ b ∈ b64encode x,
    (∃ n, b = b64Char n) ∨ b = 61
  | [] => by simp [b64encode]
  | [a] => by
      simp only [b64encode, List.mem_cons, List.not_mem_nil, or_false]
      rintro b (rfl | rfl | rfl | rfl)
      · exact Or.inl ⟨_, rfl⟩
      · exact Or.inl ⟨_, rfl⟩
      · exact Or.inr rfl
      · exact Or.inr rfl
  | [a, v] => by
      simp only [b64encode, List.mem_cons, List.not_mem_nil, or_false]
      rintro b (rfl | rfl | rfl | rfl)
      · exact Or.inl ⟨_, rfl⟩
      · exact Or.inl ⟨_, rfl⟩
      · exact Or.inl ⟨_, rfl⟩
      · exact Or.inr rfl
  | a :: v :: c :: rest => by
      simp only [b64encode, List.mem_cons]
      rintro b (rfl | rfl | rfl | rfl | hb)
      · exact Or.inl ⟨_, rfl⟩
      · exact Or.inl ⟨_, rfl⟩
      · exact Or.inl ⟨_, rfl⟩
      · exact Or.inl ⟨_, rfl⟩
      · exact b64encode_mem rest b hb

/-- Base64 encodings are ASCII byte strings. -/
theorem b64encode_lt128 (x : Bytes) : ∀ b ∈ b64encode x, b < 128 := by
  intro b hb
  rcases b64encode_mem x b hb with ⟨n, rfl⟩ | rfl
  · exact b64Char_lt128 n
  · omega

/-- The decoder consumes an alphabet byte at quad position 0. -/
theorem a2b_step0 (c : Nat) (rest : Bytes) (l p : Nat) (out : Bytes) (v : Nat)
    (hc : ¬ c = 61) (hv : b64Val c = some v) :
    a2bB64Go (c :: rest) 0 l p out = a2bB64Go rest 1 v 0 out := by
  rw [a2bB64Go.eq_def]
  simp only
  rw [if_neg hc, hv]

/-- The decoder emits a byte at quad position 1. -/
theorem a2b_step1 (c : Nat) (rest : Bytes) (l p : Nat) (out : Bytes) (v : Nat)
    (hc : ¬ c = 61) (hv : b64Val c = some v) :
    a2bB64Go (c :: rest) 1 l p out =
      a2bB64Go rest 2 (v % 16) 0 (out ++ [l * 4 + v / 16]) := by
  rw [a2bB64Go.eq_def]
  simp only
  rw [if_neg hc, hv]

/-- The decoder emits a byte at quad position 2. -/
theorem a2b_step2 (c : Nat) (rest : Bytes) (l p : Nat) (out : Bytes) (v : Nat)
    (hc : ¬ c = 61) (hv : b64Val c = some v) :
    a2bB64Go (c :: rest) 2 l p out =
      a2bB64Go rest 3 (v % 4) 0 (out ++ [l * 16 + v / 4]) := by
  rw [a2bB64Go.eq_def]
  simp only
  rw [if_neg hc, hv]

/-- The decoder emits a byte and completes the quad at position 3. -/
theorem a2b_step3 (c : Nat) (rest : Bytes) (l p : Nat) (out : Bytes) (v : Nat)
    (hc : ¬ c = 61) (hv : b64Val c = some v) :
    a2bB64Go (c :: rest) 3 l p out = a2bB64Go rest 0 0 0 (out ++ [l * 64 + v]) := by
  rw [a2bB64Go.eq_def]
  simp only
  rw [if_neg hc, hv]

/-- A first padding byte after two data bytes of a quad is only counted. -/
theorem a2b_pad2a (rest : Bytes) (l : Nat) (out : Bytes) :
    a2bB64Go (61 :: rest) 2 l 0 out = a2bB64Go rest 2 l 1 out := by
  rw [a2bB64Go.eq_def]
  simp only
  norm_num

/-- A second padding byte after two data bytes completes the pad sequence. -/
theorem a2b_pad2b (rest : Bytes) (l : Nat) (out : Bytes) :
    a2bB64Go (61 :: rest) 2 l 1 out = some out := by
  rw [a2bB64Go.eq_def]
  simp only
  norm_num

/-- A padding byte after three data bytes completes the pad sequence. -/
theorem a2b_pad3 (rest : Bytes) (l : Nat) (out : Bytes) :
    a2bB64Go (61 :: rest) 3 l 0 out = some out := by
  rw [a2bB64Go.eq_def]
  simp only
  norm_num

/-- The non-strict decoder inverts `base64.b64encode`: each full quad of
alphabet bytes yields three output bytes and the final pad sequence closes
the last group. -/
theorem a2b_b64encode : ∀ x : Bytes, ValidB x → ∀ out : Bytes,
    a2bB64Go (b64encode x) 0 0 0 out = some (out ++ x)
  | [] => fun _ out => by simp [b64encode, a2bB64Go]
  | [a] => fun hv out => by
      have ha : a < 256 := hv a (by simp)
      have h1 : a / 4 < 64 := by omega
      have h2 : a % 4 * 16 < 64 := by omega
      simp only [b64encode]
      rw [a2b_step0 _ _ _ _ _ _ (b64Char_ne_61 _) (b64Val_b64Char _ h1),
        a2b_step1 _ _ _ _ _ _ (b64Char_ne_61 _) (b64Val_b64Char _ h2),
        a2b_pad2a, a2b_pad2b]
      have e1 : a / 4 * 4 + a % 4 * 16 / 16 = a := by omega
      rw [e1]
  | [a, d] => fun hv out => by
      have ha : a < 256 := hv a (by simp)
      have hd : d < 256 := hv d (by simp)
      have h1 : a / 4 < 64 := by omega
      have h2 : a % 4 * 16 + d / 16 < 64 := by omega
      have h3 : d % 16 * 4 < 64 := by omega
      simp only [b64encode]
      rw [a2b_step0 _ _ _ _ _ _ (b64Char_ne_61 _) (b64Val_b64Char _ h1),
        a2b_step1 _ _ _ _ _ _ (b64Char_ne_61 _) (b64Val_b64Char _ h2),
        a2b_step2 _ _ _ _ _ _ (b64Char_ne_61 _) (b64Val_b64Char _ h3),
        a2b_pad3]
      have e1 : a / 4 * 4 + (a % 4 * 16 + d / 16) / 16 = a := by omega
      have e2 : (a % 4 * 16 + d / 16) % 16 * 16 + d % 16 * 4 / 4 = d := by omega
      rw [e1, e2]
      simp
  | a :: d :: c :: rest => fun hv out => by
      have ha : a < 256 := hv a (by simp)
      have hd : d < 256 := hv d (by simp)
      have hc : c < 256 := hv c (by simp)
      have h1 : a / 4 < 64 := by omega
      have h2 : a % 4 * 16 + d / 16 < 64 := by omega
      have h3 : d % 16 * 4 + c / 64 < 64 := by omega
      have h4 : c % 64 < 64 := by omega
      have ih := a2b_b64encode rest (fun b hb => hv b (by simp [hb]))
      simp only [b64encode]
      rw [a2b_step0 _ _ _ _ _ _ (b64Char_ne_61 _) (b64Val_b64Char _ h1),
        a2b_step1 _ _ _ _ _ _ (b64Char_ne_61 _) (b64Val_b64Char _ h2),
        a2b_step2 _ _ _ _ _ _ (b64Char_ne_61 _) (b64Val_b64Char _ h3),
        a2b_step3 _ _ _ _ _ _ (b64Char_ne_61 _) (b64Val_b64Char _ h4),
        ih]
      have e1 : a / 4 * 4 + (a % 4 * 16 + d / 16) / 16 = a := by omega
      have e2 : (a % 4 * 16 + d / 16) % 16 * 16 + (d % 16 * 4 + c / 64) / 4 = d := by
        omega
      have e3 : (d % 16 * 4 + c / 64) % 4 * 64 + c % 64 = c := by omega
      rw [e1, e2, e3]
      simp

/-- `base64.b64decode` inverts `base64.b64encode`. -/
theorem b64decode_b64encode (x : Bytes) (hv : ValidB x) :
    b64decode (b64encode x) = some x := by
  unfold b64decode
  rw [a2b_b64encode x hv []]
  simp

/-- ASCII byte strings are valid UTF-8. -/
theorem isValidUtf8_of_ascii : ∀ s : Bytes, (∀ b ∈ s, b < 128) →
    isValidUtf8 s = true
  | [] => fun _ => rfl
  | b :: rest => by
      intro h
      have hb : b < 128 := h b (by simp)
      have ih := isValidUtf8_of_ascii rest (fun x hx => h x (by simp [hx]))
      conv_lhs => rw [isValidUtf8.eq_def]
      simp only [if_pos hb]
      exact ih

/-- Splitting a separator-free string yields the single field. -/
theorem splitOnByte_no_sep {sep : Nat} : ∀ s : Bytes, (∀ b ∈ s, b ≠ sep) →
    splitOnByte sep s = [s]
  | [] => fun _ => rfl
  | b :: rest => by
      intro h
      have hb : b ≠ sep := h b (by simp)
      simp only [splitOnByte, if_neg hb,
        splitOnByte_no_sep rest (fun x hx => h x (by simp [hx]))]

/-- Splitting after a separator-free field. -/
theorem splitOnByte_append {sep : Nat} : ∀ a rest : Bytes, (∀ b ∈ a, b ≠ sep) →
    splitOnByte sep (a ++ sep :: rest) = a :: splitOnByte sep rest
  | [], rest => fun _ => by
      simp [splitOnByte]
  | b :: a, rest => by
      intro h
      have hb : b ≠ sep := h b (by simp)
      have ih := splitOnByte_append a rest (fun x hx => h x (by simp [hx]))
      simp only [List.cons_append, splitOnByte, if_neg hb, List.append_eq, ih]

/-- C2.  For ASCII, colon-free course id, resource link id and user id, the
sourced-id codec round-trips: decoding the encoded id yields exactly the
original triple. -/
theorem sourced_id_roundtrip (c r u : Bytes)
    (hc : ∀ b ∈ c, b < 128 ∧ b ≠ 58) (hr : ∀ b ∈ r, b < 128 ∧ b ≠ 58)
    (hu : ∀ b ∈ u, b < 128 ∧ b ≠ 58) :
    decodeSourcedId (encodeSourcedId c r u) = some (c, r, u) := by
  have hpayload : ∀ b ∈ c ++ 58 :: (r ++ 58 :: u), b < 128 := by
    intro b hb
    rcases List.mem_append.mp hb with h | h1
    · exact (hc b h).1
    rcases List.mem_cons.mp h1 with rfl | h2
    · omega
    rcases List.mem_append.mp h2 with h | h3
    · exact (hr b h).1
    rcases List.mem_cons.mp h3 with rfl | h4
    · omega
    · exact (hu b h4).1
  have hvalid : ValidB (c ++ 58 :: (r ++ 58 :: u)) :=
    fun b hb => lt_trans (hpayload b hb) (by omega)
  have he : encodeSourcedId c r u = b64encode (c ++ 58 :: (r ++ 58 :: u)) := by
    simp [encodeSourcedId]
  have h1 : b64decodeStr (encodeSourcedId c r u) =
      some (c ++ 58 :: (r ++ 58 :: u)) := by
    rw [he]
    unfold b64decodeStr
    rw [if_pos (by simpa [List.all_eq_true] using
      b64encode_lt128 (c ++ 58 :: (r ++ 58 :: u)))]
    exact b64decode_b64encode _ hvalid
  have h2 : utf8Decode (c ++ 58 :: (r ++ 58 :: u)) =
      some (c ++ 58 :: (r ++ 58 :: u)) := by
    unfold utf8Decode
    rw [if_pos (isValidUtf8_of_ascii _ hpayload)]
  have h3 : splitOnByte 58 (c ++ 58 :: (r ++ 58 :: u)) = [c, r, u] := by
    rw [splitOnByte_append c _ (fun b hb => (hc b hb).2),
      splitOnByte_append r _ (fun b hb => (hr b hb).2),
      splitOnByte_no_sep u (fun b hb => (hu b hb).2)]
  simp [decodeSourcedId, h1, h2, h3]

/-- Witness for C2 at the spec's example triple `(7, "abc-123", 42)`. -/
theorem sourced_id_roundtrip_witness :
    decodeSourcedId (encodeSourcedId (ascii "7") (ascii "abc-123") (ascii "42"))
      = some (ascii "7", ascii "abc-123", ascii "42") :=
  sourced_id_roundtrip _ _ _ (by decide) (by decide) (by decide)

set_option maxRecDepth 100000

/-- Bytes captured by the tag regex contain no `<`. -/
theorem takeNonLt_no60 : ∀ s : Bytes, ∀ x ∈ takeNonLt s, x ≠ 60
  | [] => by simp [takeNonLt]
  | b :: r => by
      intro x hx
      by_cases hb : b = 60
      · simp [takeNonLt, hb] at hx
      · simp only [takeNonLt, if_neg hb, List.mem_cons] at hx
        rcases hx with rfl | hx
        · exact hb
        · exact takeNonLt_no60 r x hx

/-- A successful tag extraction yields a nonempty, `<`-free capture. -/
theorem extractTag_spec {openT closeT : Bytes} : ∀ body m : Bytes,
    extractTag openT closeT body = some m → m ≠ [] ∧ ∀ x ∈ m, x ≠ 60
  | [] => by simp [extractTag]
  | b :: rest => by
      intro m h
      rw [extractTag.eq_def] at h
      simp only at h
      split at h
      · split at h
        · rename_i hcond
          injection h with h
          subst h
          exact ⟨hcond.1, takeNonLt_no60 _⟩
        · exact extractTag_spec rest m h
      · exact extractTag_spec rest m h

/-- An internal mismatch rules out a prefix match for any continuation. -/
theorem startsW_eq_false_of_mismatch : ∀ pat s r : Bytes,
    mismatchInside pat s = true → startsW pat (s ++ r) = false
  | p :: ps, b :: bs, r => by
      intro h
      simp only [mismatchInside, Bool.or_eq_true, decide_eq_true_eq] at h
      simp only [List.cons_append, startsW, Bool.and_eq_false_iff]
      rcases h with h | h
      · exact Or.inl (by simpa using h)
      · exact Or.inr (startsW_eq_false_of_mismatch ps bs r h)
  | [], s, r => by intro h; cases s <;> simp [mismatchInside] at h
  | p :: ps, [], r => by intro h; simp [mismatchInside] at h

/-- Tag search skips a prefix whose every position has an internal mismatch
with the opening tag. -/
theorem extractTag_append_clean {openT closeT : Bytes} : ∀ t r : Bytes,
    cleanPre openT t = true →
    extractTag openT closeT (t ++ r) = extractTag openT closeT r
  | [], r => fun _ => rfl
  | b :: t, r => by
      intro h
      simp only [cleanPre, Bool.and_eq_true] at h
      have hs := startsW_eq_false_of_mismatch openT (b :: t) r h.1
      simp only [List.cons_append] at hs
      rw [List.cons_append, extractTag.eq_def]
      simp only
      rw [if_neg (by simp [hs])]
      exact extractTag_append_clean t r h.2

/-- Tag search skips a `<`-free run when the opening tag starts with `<`. -/
theorem extractTag_skip_no60 {openT closeT : Bytes} {pt : Bytes}
    (hpat : openT = 60 :: pt) : ∀ m r : Bytes, (∀ x ∈ m, x ≠ 60) →
    extractTag openT closeT (m ++ r) = extractTag openT closeT r
  | [], r => fun _ => rfl
  | b :: m, r => by
      intro h
      have hb : b ≠ 60 := h b (by simp)
      rw [List.cons_append, extractTag.eq_def]
      simp only
      rw [if_neg (by
        simp only [hpat, startsW, List.cons_append, Bool.and_eq_true,
          decide_eq_true_eq, not_and]
        intro he
        exact absurd he.symm hb)]
      exact extractTag_skip_no60 hpat m r (fun x hx => h x (by simp [hx]))

/-- A pattern is a prefix of itself followed by anything. -/
theorem startsW_self : ∀ p r : Bytes, startsW p (p ++ r) = true
  | [], r => rfl
  | b :: p, r => by simp [startsW, startsW_self p r]

/-- The maximal `<`-free run before a `<` is exactly the `<`-free block. -/
theorem takeNonLt_append : ∀ m rest : Bytes, (∀ x ∈ m, x ≠ 60) →
    takeNonLt (m ++ 60 :: rest) = m
  | [], rest => fun _ => by simp [takeNonLt]
  | b :: m, rest => by
      intro h
      have hb : b ≠ 60 := h b (by simp)
      simp only [List.cons_append, takeNonLt, if_neg hb, List.cons.injEq, true_and]
      exact takeNonLt_append m rest (fun x hx => h x (by simp [hx]))

/-- At a position where the opening tag is followed by a nonempty `<`-free run
and the closing tag, the regex search succeeds with exactly that run. -/
theorem extractTag_hit {p0 : Nat} {pat closeT ct : Bytes}
    (hclose : closeT = 60 :: ct) : ∀ m t : Bytes, m ≠ [] → (∀ x ∈ m, x ≠ 60) →
    extractTag (p0 :: pat) closeT ((p0 :: pat) ++ (m ++ (closeT ++ t))) = some m := by
  intro m t hm h60
  have hstart := startsW_self (p0 :: pat) (m ++ (closeT ++ t))
  simp only [List.cons_append] at hstart
  rw [List.cons_append, extractTag.eq_def]
  simp only
  rw [if_pos (by simpa using hstart)]
  have hdrop1 : ((p0 :: pat) ++ (m ++ (closeT ++ t))).drop (p0 :: pat).length
      = m ++ (closeT ++ t) := by
    rw [List.drop_left]
  have hrun : takeNonLt (m ++ (closeT ++ t)) = m := by
    rw [hclose]
    exact takeNonLt_append m (ct ++ t) h60
  simp only [List.cons_append] at hdrop1
  rw [hdrop1, hrun]
  have hdrop2 : ((p0 :: pat) ++ (m ++ (closeT ++ t))).drop
      ((p0 :: pat).length + m.length) = closeT ++ t := by
    rw [← List.drop_drop, List.drop_left, List.drop_left]
  simp only [List.cons_append] at hdrop2
  rw [hdrop2]
  rw [if_pos ⟨hm, by simpa using startsW_self closeT t⟩]

/-- `respPartB` ends with the `imsx_messageRefIdentifier` opening tag. -/
theorem respPartB_split :
    respPartB = respPartB1 ++ ascii "<imsx_messageRefIdentifier>" := by decide

/-- `respPartC` starts with the `imsx_messageRefIdentifier` closing tag. -/
theorem respPartC_split :
    respPartC = ascii "</imsx_messageRefIdentifier>" ++ respPartC1 := by decide

/-- `respPartB` around its `imsx_codeMajor` element. -/
theorem respPartB_split_cm :
    respPartB = respPartB2 ++ (ascii "<imsx_codeMajor>" ++ (ascii "success" ++
      (ascii "</imsx_codeMajor>" ++ respPartB3))) := by decide

theorem refOpen_cons :
    ascii "<imsx_messageRefIdentifier>" = 60 :: ascii "imsx_messageRefIdentifier>" := by
  decide

theorem refClose_cons :
    ascii "</imsx_messageRefIdentifier>" = 60 :: ascii "/imsx_messageRefIdentifier>" := by
  decide

theorem cmOpen_cons :
    ascii "<imsx_codeMajor>" = 60 :: ascii "imsx_codeMajor>" := by decide

theorem cmClose_cons :
    ascii "</imsx_codeMajor>" = 60 :: ascii "/imsx_codeMajor>" := by decide

theorem cleanA_ref :
    cleanPre (ascii "<imsx_messageRefIdentifier>") respPartA = true := by decide

theorem cleanB1_ref :
    cleanPre (ascii "<imsx_messageRefIdentifier>") respPartB1 = true := by decide

theorem cleanA_cm :
    cleanPre (ascii "<imsx_codeMajor>") respPartA = true := by decide

theorem cleanB2_cm :
    cleanPre (ascii "<imsx_codeMajor>") respPartB2 = true := by decide

/-- The success response echoes the interpolated message id under
`imsx_messageRefIdentifier` (as the handler's own regex would read it back). -/
theorem successResponse_ref (m : Bytes) (hm : m ≠ []) (h60 : ∀ x ∈ m, x ≠ 60) :
    extractTag (ascii "<imsx_messageRefIdentifier>")
      (ascii "</imsx_messageRefIdentifier>") (successResponse m) = some m := by
  have h1 : successResponse m =
      respPartA ++ (m ++ (respPartB1 ++ (ascii "<imsx_messageRefIdentifier>" ++
        (m ++ (ascii "</imsx_messageRefIdentifier>" ++ respPartC1))))) := by
    rw [successResponse, respPartB_split, respPartC_split]
    simp [List.append_assoc]
  rw [h1, extractTag_append_clean _ _ cleanA_ref,
    extractTag_skip_no60 refOpen_cons m _ h60,
    extractTag_append_clean _ _ cleanB1_ref, refOpen_cons]
  exact extractTag_hit refClose_cons m respPartC1 hm h60

/-- The success response always carries `imsx_codeMajor` = `success`. -/
theorem successResponse_codeMajor (m : Bytes) (h60 : ∀ x ∈ m, x ≠ 60) :
    extractTag (ascii "<imsx_codeMajor>") (ascii "</imsx_codeMajor>")
      (successResponse m) = some (ascii "success") := by
  have h1 : successResponse m =
      respPartA ++ (m ++ (respPartB2 ++ (ascii "<imsx_codeMajor>" ++
        (ascii "success" ++ (ascii "</imsx_codeMajor>" ++
          (respPartB3 ++ (m ++ respPartC))))))) := by
    rw [successResponse, respPartB_split_cm]
    simp [List.append_assoc]
  rw [h1, extractTag_append_clean _ _ cleanA_cm,
    extractTag_skip_no60 cmOpen_cons m _ h60,
    extractTag_append_clean _ _ cleanB2_cm, cmOpen_cons]
  exact extractTag_hit cmClose_cons (ascii "success") _ (by decide) (by decide)

/-- C3 counterexample.  A body whose `textString` content does not parse as a
float makes the endpoint raise (`float(...)` at `app.py` line 1997 sits
outside the `try`), so an error surfaces to the HTTP caller instead of the
success-shaped response the claim promises. -/
theorem outcome_unparsable_score_raises :
    receive_outcome [] (ascii "fresh-id")
      (ascii "<textString>abc</textString>") = Except.error () := rfl

/-- C3 amended.  If the `sourcedId` element is absent and the `textString`
element is absent or parses as a float (and the body is valid UTF-8), the
handler creates no grade record — whatever rows are stored — and answers with
the success-shaped response built from the inbound message id (or the fresh
UUID when none is present). -/
theorem outcome_no_sourcedid_permissive (cts : List CourseTool)
    (freshId body : Bytes) (hv : isValidUtf8 body = true)
    (hsid : extractTag (ascii "<sourcedId>") (ascii "</sourcedId>") body = none)
    (hscore : extractTag (ascii "<textString>") (ascii "</textString>") body = none ∨
      ∃ t, extractTag (ascii "<textString>") (ascii "</textString>") body = some t ∧
        pyFloatAccepts t = true) :
    receive_outcome cts freshId body =
      .ok (none, successResponse ((extractTag (ascii "<imsx_messageIdentifier>")
        (ascii "</imsx_messageIdentifier>") body).getD freshId)) := by
  unfold receive_outcome
  rw [if_pos hv, hsid]
  rcases hscore with h | ⟨t, ht, hacc⟩
  · rw [h]
    simp [receiveCore]
  · rw [ht]
    simp only [if_pos hacc]
    simp [receiveCore]

/-- Witness for the amended C3 at a body with no extractable elements. -/
theorem outcome_no_sourcedid_permissive_witness :
    receive_outcome [] (ascii "m") (ascii "<foo/>") =
      .ok (none, successResponse ((extractTag (ascii "<imsx_messageIdentifier>")
        (ascii "</imsx_messageIdentifier>") (ascii "<foo/>")).getD (ascii "m"))) :=
  outcome_no_sourcedid_permissive [] (ascii "m") (ascii "<foo/>")
    (by decide) (by decide) (Or.inl (by decide))

/-- C4 counterexample.  A request whose sourced id does not decode still
raises when its `textString` does not parse as a float, instead of returning
the success response the claim promises for every such request. -/
theorem outcome_bad_sourcedid_raises :
    receive_outcome [] (ascii "fresh-id")
      (ascii "<imsx_messageIdentifier>m1</imsx_messageIdentifier><sourcedId>BAD</sourcedId><textString>nope</textString>")
      = Except.error () := rfl

/-- A text far from the stored id never matches it under numeric affinity. -/
theorem courseFarFrom_no_match (n : Nat) (s : Bytes)
    (h : courseFarFrom n s = true) : sqliteCourseEq n s = false := by
  unfold courseFarFrom at h
  unfold sqliteCourseEq
  cases hm : sqliteNumValue s with
  | none => rfl
  | some q =>
      rw [hm] at h
      simp only [decide_eq_true_eq] at h
      simp only [decide_eq_false_iff_not]
      intro hq
      rw [hq] at h
      simp only [sub_self, abs_zero] at h
      exact absurd h.2 (by norm_num)

/-- `fetchone()` on the association query finds nothing when every stored row
differs in resource link id or its course id is far from the decoded course
field. -/
theorem findCourseTool_none (cts : List CourseTool) (c r : Bytes)
    (h : ∀ ct ∈ cts, ct.resourceLinkId ≠ r ∨ courseFarFrom ct.courseId c = true) :
    findCourseTool cts c r = none := by
  unfold findCourseTool
  rw [List.find?_eq_none]
  intro ct hct
  rcases h ct hct with hr | hf
  · simp [hr]
  · simp [courseFarFrom_no_match _ _ hf]

/-- C4 amended.  For a valid-UTF-8 request carrying an
`imsx_messageIdentifier` and whose `textString`, when present, parses as a
float: if the `sourcedId` does not base64-decode (per the non-strict
`binascii` decoder) into exactly three `:`-separated fields, or every stored
association differs from the decoded pair in resource link id or has a course
id (below `2 ^ 52`) at least `1` away from the decoded course field's numeric
value — a no-match robust to SQLite's numeric affinity — the handler stores
no grade row and returns the success-shaped response, which echoes the
inbound message id as `imsx_messageRefIdentifier` and carries
`imsx_codeMajor` = `success`. -/
theorem outcome_unmatched_sourcedid_success (cts : List CourseTool)
    (freshId body sid msgId : Bytes) (hv : isValidUtf8 body = true)
    (hmsg : extractTag (ascii "<imsx_messageIdentifier>")
      (ascii "</imsx_messageIdentifier>") body = some msgId)
    (hsid : extractTag (ascii "<sourcedId>") (ascii "</sourcedId>") body = some sid)
    (hscore : extractTag (ascii "<textString>") (ascii "</textString>") body = none ∨
      ∃ t, extractTag (ascii "<textString>") (ascii "</textString>") body = some t ∧
        pyFloatAccepts t = true)
    (hbad : decodeSourcedId sid = none ∨
      ∃ c r u, decodeSourcedId sid = some (c, r, u) ∧
        ∀ ct ∈ cts, ct.resourceLinkId ≠ r ∨ courseFarFrom ct.courseId c = true) :
    receive_outcome cts freshId body = .ok (none, successResponse msgId) ∧
    extractTag (ascii "<imsx_messageRefIdentifier>")
      (ascii "</imsx_messageRefIdentifier>") (successResponse msgId) = some msgId ∧
    extractTag (ascii "<imsx_codeMajor>") (ascii "</imsx_codeMajor>")
      (successResponse msgId) = some (ascii "success") := by
  obtain ⟨hne, h60⟩ := extractTag_spec body msgId hmsg
  have hrow : receiveCore cts body (some sid)
      ((extractTag (ascii "<textString>") (ascii "</textString>") body)) msgId
      = (none, successResponse msgId) := by
    unfold receiveCore
    rcases hbad with h | ⟨c, r, u, hdec, hfar⟩
    · cases hts : extractTag (ascii "<textString>") (ascii "</textString>") body <;>
        simp [h, hts]
    · have hfind := findCourseTool_none cts c r hfar
      cases hts : extractTag (ascii "<textString>") (ascii "</textString>") body <;>
        simp [hdec, hfind, hts]
  constructor
  · unfold receive_outcome
    rw [if_pos hv, hsid, hmsg]
    rcases hscore with h | ⟨t, ht, hacc⟩
    · rw [h]
      rw [← hrow]
      simp [h]
    · rw [ht]
      simp only [if_pos hacc]
      rw [← hrow]
      simp [ht]
  refine ⟨successResponse_ref msgId hne h60, successResponse_codeMajor msgId h60⟩

/-- Witness for the amended C4 at the spec's `BAD` sourced id with a parsing
score `0.9`. -/
theorem outcome_unmatched_sourcedid_success_witness :
    receive_outcome [] (ascii "fresh-id")
      (ascii "<imsx_messageIdentifier>m1</imsx_messageIdentifier><sourcedId>BAD</sourcedId><textString>0.9</textString>")
      = .ok (none, successResponse (ascii "m1")) ∧
    extractTag (ascii "<imsx_messageRefIdentifier>")
      (ascii "</imsx_messageRefIdentifier>") (successResponse (ascii "m1"))
      = some (ascii "m1") ∧
    extractTag (ascii "<imsx_codeMajor>") (ascii "</imsx_codeMajor>")
      (successResponse (ascii "m1")) = some (ascii "success") :=
  outcome_unmatched_sourcedid_success [] (ascii "fresh-id") _ (ascii "BAD")
    (ascii "m1") (by decide) (by decide) (by decide)
    (Or.inr ⟨ascii "0.9", by decide, by decide⟩) (Or.inl (by decide))

/-- String order is total. -/
theorem bytesLe_total : ∀ s t : Bytes, bytesLe s t = true ∨ bytesLe t s = true
  | [], _ => Or.inl rfl
  | _ :: _, [] => Or.inr rfl
  | a :: s, b :: t => by
      rcases Nat.lt_trichotomy a b with h | rfl | h
      · left; simp [bytesLe, h]
      · rcases bytesLe_total s t with h | h
        · left; simp [bytesLe, Nat.lt_irrefl, h]
        · right; simp [bytesLe, Nat.lt_irrefl, h]
      · right; simp [bytesLe, h]

/-- String order is antisymmetric. -/
theorem bytesLe_antisymm : ∀ s t : Bytes,
    bytesLe s t = true → bytesLe t s = true → s = t
  | [], [] => fun _ _ => rfl
  | [], b :: t => fun _ h2 => by simp [bytesLe] at h2
  | a :: s, [] => fun h1 _ => by simp [bytesLe] at h1
  | a :: s, b :: t => fun h1 h2 => by
      rcases Nat.lt_trichotomy a b with h | rfl | h
      · simp [bytesLe, h, Nat.lt_asymm h] at h2
      · simp only [bytesLe, Nat.lt_irrefl, if_false] at h1 h2
        rw [bytesLe_antisymm s t h1 h2]
      · simp [bytesLe, h, Nat.lt_asymm h] at h1

/-- String order is transitive. -/
theorem bytesLe_trans : ∀ s t u : Bytes,
    bytesLe s t = true → bytesLe t u = true → bytesLe s u = true
  | [], _, _ => fun _ _ => rfl
  | a :: s, [], _ => fun h _ => by simp [bytesLe] at h
  | a :: s, b :: t, [] => fun _ h => by simp [bytesLe] at h
  | a :: s, b :: t, c :: u => fun h1 h2 => by
      rcases Nat.lt_trichotomy a b with hab | rfl | hab
      · rcases Nat.lt_trichotomy b c with hbc | rfl | hbc
        · simp [bytesLe, lt_trans hab hbc]
        · simp [bytesLe, hab]
        · simp [bytesLe, hbc, Nat.lt_asymm hbc] at h2
      · rcases Nat.lt_trichotomy a c with hac | rfl | hac
        · simp [bytesLe, hac]
        · simp only [bytesLe, Nat.lt_irrefl, if_false] at h1 h2 ⊢
          exact bytesLe_trans s t u h1 h2
        · simp [bytesLe, hac, Nat.lt_asymm hac] at h2
      · simp [bytesLe, hab, Nat.lt_asymm hab] at h1

/-- Tuple order is total. -/
theorem pairLe_total (p q : Param) : pairLe p q = true ∨ pairLe q p = true := by
  unfold pairLe
  by_cases h : p.1 = q.1
  · rw [if_pos h, if_pos h.symm]
    exact bytesLe_total _ _
  · rw [if_neg h, if_neg (fun he => h he.symm)]
    exact bytesLe_total _ _

/-- Tuple order is transitive. -/
theorem pairLe_trans (p q r : Param) :
    pairLe p q = true → pairLe q r = true → pairLe p r = true := by
  unfold pairLe
  by_cases h1 : p.1 = q.1 <;> by_cases h2 : q.1 = r.1
  · rw [if_pos h1, if_pos h2, if_pos (h1.trans h2)]
    exact bytesLe_trans _ _ _
  · rw [if_pos h1, if_neg h2, if_neg (fun he => h2 (h1.symm.trans he)), h1]
    exact fun _ hb => hb
  · rw [if_neg h1, if_pos h2, if_neg (fun he => h1 (he.trans h2.symm)), ← h2]
    exact fun hb _ => hb
  · by_cases h3 : p.1 = r.1
    · rw [if_neg h1, if_neg h2, if_pos h3]
      intro ha hb
      rw [h3] at ha
      exact absurd (bytesLe_antisymm _ _ hb ha) h2
    · rw [if_neg h1, if_neg h2, if_neg h3]
      exact bytesLe_trans _ _ _

/-- C6 counterexample.  On the mapping `{'-': 'x', '/': 'y'}` the code's
parameter string (raw-pair sort: `-=x&%2F=y`) differs from the spec's
encoded-pair sort (`%2F=y&-=x`), because percent-encoding swaps the byte
order of the keys `-` (kept literal) and `/` (encoded to `%2F`). -/
theorem param_sort_not_encoded_order :
    paramString [(ascii "-", ascii "x"), (ascii "/", ascii "y")] ≠
      specParamString [(ascii "-", ascii "x"), (ascii "/", ascii "y")] := by
  decide

/-- C6 amended.  `generate_oauth_signature` sorts the parameter pairs by raw
key and then raw value in ascending byte order (not by their percent-encoded
forms), percent-encodes each side, joins them as `key=value` with `&`, and the
base string is `UPPER(method) & quote(url) & quote(parameterString)`. -/
theorem base_string_raw_sorted (method url : Bytes) (ps : List Param) :
    ∃ l : List Param, l.Perm ps ∧ l.Pairwise (fun p q => pairLe p q = true) ∧
      signatureBase method url ps =
        joinSep 38 [upperAscii method, pyQuote url,
          pyQuote (joinSep 38 (l.map encPair))] := by
  haveI : IsTotal Param (fun p q => pairLe p q = true) := ⟨pairLe_total⟩
  haveI : IsTrans Param (fun p q => pairLe p q = true) := ⟨pairLe_trans⟩
  exact ⟨sortParams ps, List.perm_insertionSort _ ps,
    List.sorted_insertionSort _ ps, rfl⟩

/-- Hexadecimal digit bytes are injective on nibbles. -/
theorem hexUpper_inj {m n : Nat} (hm : m ≤ 15) (hn : n ≤ 15) :
    hexUpper m = hexUpper n → m = n := by
  unfold hexUpper
  split <;> split <;> omega

/-- Hexadecimal digit bytes are `0`–`9` or `A`–`F`. -/
theorem hexUpper_range {n : Nat} (hn : n ≤ 15) :
    (48 ≤ hexUpper n ∧ hexUpper n ≤ 57) ∨ (65 ≤ hexUpper n ∧ hexUpper n ≤ 70) := by
  unfold hexUpper
  split <;> omega

/-- Percent-encoded output bytes are never `&`, `=`, and are ASCII. -/
theorem pyQuote_mem : ∀ s : Bytes, ValidB s →
    ∀ b ∈ pyQuote s, b ≠ 38 ∧ b ≠ 61 ∧ b < 128
  | [] => by simp [pyQuote, catMap]
  | a :: s => by
      intro hv b hb
      have ha : a < 256 := hv a (by simp)
      have ih := pyQuote_mem s (fun x hx => hv x (by simp [hx]))
      simp only [pyQuote, catMap, List.mem_append] at hb
      rcases hb with hb | hb
      · unfold pctEncodeByte at hb
        split at hb
        · rename_i hres
          simp only [List.mem_singleton] at hb
          subst hb
          simp only [unreservedByte, decide_eq_true_eq] at hres
          omega
        · simp only [List.mem_cons, List.not_mem_nil, or_false] at hb
          have r1 := hexUpper_range (n := a / 16) (by omega)
          have r2 := hexUpper_range (n := a % 16) (by omega)
          rcases hb with rfl | rfl | rfl <;> omega
      · exact ih b hb

/-- `urllib.parse.quote(..., safe='')` is injective on byte strings: its
per-byte code is prefix-free (either a literal unreserved byte, which is never
`%`, or `%` followed by two hex digits). -/
theorem pyQuote_inj : ∀ s t : Bytes, ValidB s → ValidB t →
    pyQuote s = pyQuote t → s = t
  | [], [] => fun _ _ _ => rfl
  | [], b :: t => fun _ _ h => by
      unfold pyQuote catMap pctEncodeByte at h
      split at h <;> simp at h
  | a :: s, [] => fun _ _ h => by
      unfold pyQuote catMap pctEncodeByte at h
      split at h <;> simp at h
  | a :: s, b :: t => fun hs ht h => by
      have ha : a < 256 := hs a (by simp)
      have hb : b < 256 := ht b (by simp)
      have hs' : ValidB s := fun x hx => hs x (by simp [hx])
      have ht' : ValidB t := fun x hx => ht x (by simp [hx])
      simp only [pyQuote, catMap] at h
      by_cases hua : unreservedByte a = true <;> by_cases hub : unreservedByte b = true
      · rw [pctEncodeByte, if_pos hua, pctEncodeByte, if_pos hub] at h
        simp only [List.cons_append, List.nil_append, List.cons.injEq] at h
        rw [h.1, pyQuote_inj s t hs' ht' h.2]
      · rw [pctEncodeByte, if_pos hua, pctEncodeByte, if_neg hub] at h
        simp only [List.cons_append, List.nil_append, List.cons.injEq] at h
        rw [h.1] at hua
        exact absurd hua (by decide)
      · rw [pctEncodeByte, if_neg hua, pctEncodeByte, if_pos hub] at h
        simp only [List.cons_append, List.nil_append, List.cons.injEq] at h
        rw [← h.1] at hub
        exact absurd hub (by decide)
      · rw [pctEncodeByte, if_neg hua, pctEncodeByte, if_neg hub] at h
        simp only [List.cons_append, List.nil_append, List.cons.injEq] at h
        obtain ⟨-, h1, h2, h3⟩ := h
        have e1 : a / 16 = b / 16 := hexUpper_inj (by omega) (by omega) h1
        have e2 : a % 16 = b % 16 := hexUpper_inj (by omega) (by omega) h2
        have : a = b := by omega
        rw [this, pyQuote_inj s t hs' ht' h3]

/-- Cutting two strings at their first separator: separator-free heads and the
tails agree. -/
theorem append_sep_inj {sep : Nat} : ∀ a1 a2 t1 t2 : Bytes,
    (∀ b ∈ a1, b ≠ sep) → (∀ b ∈ a2, b ≠ sep) →
    a1 ++ sep :: t1 = a2 ++ sep :: t2 → a1 = a2 ∧ t1 = t2
  | [], [], t1, t2 => fun _ _ h => by simpa using h
  | [], b :: a2, t1, t2 => fun _ h2 h => by
      simp only [List.nil_append, List.cons_append, List.cons.injEq] at h
      exact absurd h.1.symm (h2 b (by simp))
  | a :: a1, [], t1, t2 => fun h1 _ h => by
      simp only [List.nil_append, List.cons_append, List.cons.injEq] at h
      exact absurd h.1 (h1 a (by simp))
  | a :: a1, b :: a2, t1, t2 => fun h1 h2 h => by
      simp only [List.cons_append, List.cons.injEq] at h
      obtain ⟨rfl, h⟩ := h
      obtain ⟨rfl, rfl⟩ := append_sep_inj a1 a2 t1 t2
        (fun x hx => h1 x (by simp [hx])) (fun x hx => h2 x (by simp [hx])) h
      exact ⟨rfl, rfl⟩

/-- `&`-joins of nonempty `&`-free parts are injective. -/
theorem joinSep_inj : ∀ xs ys : List Bytes,
    (∀ x ∈ xs, x ≠ [] ∧ ∀ b ∈ x, b ≠ 38) →
    (∀ y ∈ ys, y ≠ [] ∧ ∀ b ∈ y, b ≠ 38) →
    joinSep 38 xs = joinSep 38 ys → xs = ys
  | [], [], _, _ => fun _ => rfl
  | [], [y], _, hy => fun h => absurd h.symm (hy y (by simp)).1
  | [], y1 :: y2 :: ys, _, _ => fun h => by
      simp only [joinSep] at h
      exact absurd h.symm (by simp)
  | [x], [], hx, _ => fun h => absurd h (hx x (by simp)).1
  | x1 :: x2 :: xs, [], _, _ => fun h => by
      simp only [joinSep] at h
      exact absurd h (by simp)
  | [x], [y], _, _ => fun h => by simpa [joinSep] using h
  | [x], y1 :: y2 :: ys, hx, hy => fun h => by
      simp only [joinSep] at h
      have h38 : (38 : Nat) ∈ x := h ▸ (by simp : (38 : Nat) ∈ y1 ++ 38 :: joinSep 38 (y2 :: ys))
      exact absurd rfl ((hx x (by simp)).2 38 h38)
  | x1 :: x2 :: xs, [y], hx, hy => fun h => by
      simp only [joinSep] at h
      have h38 : (38 : Nat) ∈ y :=
        h ▸ (by simp : (38 : Nat) ∈ x1 ++ 38 :: joinSep 38 (x2 :: xs))
      exact absurd rfl ((hy y (by simp)).2 38 h38)
  | x1 :: x2 :: xs, y1 :: y2 :: ys, hx, hy => fun h => by
      simp only [joinSep] at h
      obtain ⟨rfl, heq⟩ := append_sep_inj x1 y1 _ _
        (hx x1 (by simp)).2 (hy y1 (by simp)).2 h
      have := joinSep_inj (x2 :: xs) (y2 :: ys)
        (fun x hxm => hx x (by simp [List.mem_cons] at hxm ⊢; tauto))
        (fun y hym => hy y (by simp [List.mem_cons] at hym ⊢; tauto)) heq
      rw [this]

/-- `key=value` fragments determine the pair. -/
theorem encPair_inj {p q : Param} (hp : ValidB p.1 ∧ ValidB p.2)
    (hq : ValidB q.1 ∧ ValidB q.2) : encPair p = encPair q → p = q := by
  intro h
  unfold encPair at h
  obtain ⟨h1, h2⟩ := append_sep_inj _ _ _ _
    (fun b hb => (pyQuote_mem _ hp.1 b hb).2.1)
    (fun b hb => (pyQuote_mem _ hq.1 b hb).2.1) h
  have e1 := pyQuote_inj _ _ hp.1 hq.1 h1
  have e2 := pyQuote_inj _ _ hp.2 hq.2 h2
  exact Prod.ext e1 e2

/-- Lists of `key=value` fragments determine the pair lists. -/
theorem map_encPair_inj : ∀ l1 l2 : List Param, ValidParams l1 → ValidParams l2 →
    l1.map encPair = l2.map encPair → l1 = l2
  | [], [], _, _ => fun _ => rfl
  | [], q :: l2, _, _ => fun h => by simp at h
  | p :: l1, [], _, _ => fun h => by simp at h
  | p :: l1, q :: l2, h1, h2 => fun h => by
      simp only [List.map_cons, List.cons.injEq] at h
      rw [encPair_inj (h1 p (by simp)) (h2 q (by simp)) h.1,
        map_encPair_inj l1 l2 (fun x hx => h1 x (by simp [hx]))
          (fun x hx => h2 x (by simp [hx])) h.2]

/-- Fragments are nonempty and `&`-free. -/
theorem encPair_part_props {p : Param} (hp : ValidB p.1 ∧ ValidB p.2) :
    encPair p ≠ [] ∧ ∀ b ∈ encPair p, b ≠ 38 := by
  constructor
  · unfold encPair
    simp
  · intro b hb
    unfold encPair at hb
    rcases List.mem_append.mp hb with h | h
    · exact (pyQuote_mem _ hp.1 b h).1
    · rcases List.mem_cons.mp h with rfl | h
      · omega
      · exact (pyQuote_mem _ hp.2 b h).1

/-- Sorting preserves entry validity. -/
theorem sortParams_valid {ps : List Param} (h : ValidParams ps) :
    ValidParams (sortParams ps) := fun p hp =>
  h p ((List.perm_insertionSort _ ps).mem_iff.mp hp)

/-- The parameter string determines the parameter multiset. -/
theorem paramString_inj {ps1 ps2 : List Param} (h1 : ValidParams ps1)
    (h2 : ValidParams ps2) (h : paramString ps1 = paramString ps2) :
    ps1.Perm ps2 := by
  unfold paramString at h
  have hs := joinSep_inj _ _
    (fun x hx => by
      obtain ⟨p, hp, rfl⟩ := List.mem_map.mp hx
      exact encPair_part_props (sortParams_valid h1 p hp))
    (fun y hy => by
      obtain ⟨p, hp, rfl⟩ := List.mem_map.mp hy
      exact encPair_part_props (sortParams_valid h2 p hp)) h
  have he := map_encPair_inj _ _ (sortParams_valid h1) (sortParams_valid h2) hs
  have p2 : (sortParams ps2).Perm ps2 := List.perm_insertionSort _ ps2
  rw [← he] at p2
  exact (List.perm_insertionSort _ ps1).symm.trans p2

/-- The three-part base-string join, unfolded. -/
theorem joinSep3 (a b c : Bytes) : joinSep 38 [a, b, c] = a ++ 38 :: (b ++ 38 :: c) := rfl

/-- Bytes of a join come from the separator or the parts. -/
theorem joinSep_mem : ∀ xs : List Bytes, ∀ b ∈ joinSep 38 xs,
    b = 38 ∨ ∃ x ∈ xs, b ∈ x
  | [] => by simp [joinSep]
  | [x] => fun b hb => Or.inr ⟨x, by simp, hb⟩
  | x1 :: x2 :: xs => fun b hb => by
      simp only [joinSep] at hb
      rcases List.mem_append.mp hb with h | h
      · exact Or.inr ⟨x1, by simp, h⟩
      · rcases List.mem_cons.mp h with rfl | h
        · exact Or.inl rfl
        · rcases joinSep_mem (x2 :: xs) b h with h | ⟨x, hx, hbx⟩
          · exact Or.inl h
          · exact Or.inr ⟨x, by simp [List.mem_cons] at hx ⊢; tauto, hbx⟩

/-- Fragments are ASCII. -/
theorem encPair_mem_lt {p : Param} (hp : ValidB p.1 ∧ ValidB p.2) :
    ∀ b ∈ encPair p, b < 256 := by
  intro b hb
  unfold encPair at hb
  rcases List.mem_append.mp hb with h | h
  · have := (pyQuote_mem _ hp.1 b h).2.2; omega
  · rcases List.mem_cons.mp h with rfl | h
    · omega
    · have := (pyQuote_mem _ hp.2 b h).2.2; omega

/-- Parameter strings are well-formed byte strings. -/
theorem paramString_valid {ps : List Param} (h : ValidParams ps) :
    ValidB (paramString ps) := by
  intro b hb
  unfold paramString at hb
  rcases joinSep_mem _ b hb with rfl | ⟨x, hx, hbx⟩
  · omega
  · obtain ⟨p, hp, rfl⟩ := List.mem_map.mp hx
    exact encPair_mem_lt (sortParams_valid h p hp) b hbx

/-- For a fixed method, equal signature base strings force equal URLs and
permutation-equal parameter mappings. -/
theorem signatureBase_same_method_inj {method u1 u2 : Bytes}
    {ps1 ps2 : List Param} (hu1 : ValidB u1) (hu2 : ValidB u2)
    (hp1 : ValidParams ps1) (hp2 : ValidParams ps2)
    (h : signatureBase method u1 ps1 = signatureBase method u2 ps2) :
    u1 = u2 ∧ ps1.Perm ps2 := by
  unfold signatureBase at h
  rw [joinSep3, joinSep3] at h
  have h2 := List.append_cancel_left h
  simp only [List.cons.injEq, true_and] at h2
  obtain ⟨hq, hps⟩ := append_sep_inj _ _ _ _
    (fun b hb => (pyQuote_mem _ hu1 b hb).1)
    (fun b hb => (pyQuote_mem _ hu2 b hb).1) h2
  refine ⟨pyQuote_inj _ _ hu1 hu2 hq, ?_⟩
  exact paramString_inj hp1 hp2
    (pyQuote_inj _ _ (paramString_valid hp1) (paramString_valid hp2) hps)

/-- Replacing the value at a unique key yields a list that is not a
permutation of the original. -/
theorem update_not_perm {A B : List Param} {k v v' : Bytes}
    (hA : ∀ p ∈ A, p.1 ≠ k) (hB : ∀ p ∈ B, p.1 ≠ k) (hv : v ≠ v') :
    ¬ (A ++ (k, v') :: B).Perm (A ++ (k, v) :: B) := by
  intro hp
  have hm : ((k, v) : Param) ∈ A ++ (k, v') :: B := hp.symm.subset (by simp)
  rcases List.mem_append.mp hm with h | h
  · exact hA _ h rfl
  · rcases List.mem_cons.mp h with he | h
    · exact hv (congrArg Prod.snd he)
    · exact hB _ h rfl

/-- `verify_oauth_signature` on `P ∪ {oauth_signature: s}` compares the
received signature against the signature recomputed over `P`. -/
theorem verify_strip (method url : Bytes) (P : List Param)
    (secret s received : Bytes)
    (hP : ∀ p ∈ P, p.1 ≠ ascii "oauth_signature") :
    verify_oauth_signature method url (dictSet P (ascii "oauth_signature") s)
      secret received =
    decide (generate_oauth_signature method url P secret = received) := by
  rw [dictSet_eq_append _ hP]
  unfold verify_oauth_signature
  rw [filter_drop_signature hP]

/-- The signature depends on the method only through its upper-casing. -/
theorem gen_method_upper {m1 m2 : Bytes} (url : Bytes) (P : List Param)
    (secret : Bytes) (hm : upperAscii m1 = upperAscii m2) :
    generate_oauth_signature m1 url P secret =
      generate_oauth_signature m2 url P secret := by
  unfold generate_oauth_signature signatureBase
  rw [hm]

/-- C5 counterexample.  A launch signed with method `POST` still verifies
after the method is changed to `post`: `method.upper()` erases the change, so
changing the method does not always flip verification to false. -/
theorem method_case_change_verifies :
    verify_oauth_signature (ascii "post") (ascii "http://127.0.0.1:8080/lti/launch")
      (dictSet [(ascii "a", ascii "b")] (ascii "oauth_signature")
        (generate_oauth_signature (ascii "POST")
          (ascii "http://127.0.0.1:8080/lti/launch")
          [(ascii "a", ascii "b")] (ascii "test_secret")))
      (ascii "test_secret")
      (generate_oauth_signature (ascii "POST")
        (ascii "http://127.0.0.1:8080/lti/launch")
        [(ascii "a", ascii "b")] (ascii "test_secret")) = true := by
  rw [verify_strip _ _ _ _ _ _ (by decide)]
  rw [gen_method_upper _ _ _
    (by decide : upperAscii (ascii "post") = upperAscii (ascii "POST"))]
  simp

/-- C5 amended.  After signing `(method, u, A ++ (k, v) :: B)`:
changing the single parameter value `v` to `v' ≠ v` (the key `k` occurring
once) or the URL `u` to `u' ≠ u` always changes the signature base string, so
the old signature verifies only if HMAC-SHA1 maps the two distinct base
strings to the same tag — verification in the value-change case is equivalent
to that collision; changing the method only in letter case leaves verification
true (`method.upper()` erases the change). -/
theorem oauth_tamper_detection (method u u' : Bytes) (A B : List Param)
    (k v v' secret m' : Bytes)
    (hval : ValidParams (A ++ (k, v) :: B)) (hv' : ValidB v')
    (hu : ValidB u) (hu' : ValidB u')
    (hA : ∀ p ∈ A, p.1 ≠ k) (hB : ∀ p ∈ B, p.1 ≠ k)
    (hvv : v ≠ v') (huu : u' ≠ u)
    (hm : upperAscii m' = upperAscii method)
    (hks : k ≠ ascii "oauth_signature")
    (hsig : ∀ p ∈ A ++ B, p.1 ≠ ascii "oauth_signature") :
    signatureBase method u (A ++ (k, v') :: B) ≠
        signatureBase method u (A ++ (k, v) :: B) ∧
    (verify_oauth_signature method u
        (dictSet (A ++ (k, v') :: B) (ascii "oauth_signature")
          (generate_oauth_signature method u (A ++ (k, v) :: B) secret))
        secret (generate_oauth_signature method u (A ++ (k, v) :: B) secret)
        = true ↔
      generate_oauth_signature method u (A ++ (k, v') :: B) secret =
        generate_oauth_signature method u (A ++ (k, v) :: B) secret) ∧
    signatureBase method u' (A ++ (k, v) :: B) ≠
        signatureBase method u (A ++ (k, v) :: B) ∧
    verify_oauth_signature m' u
      (dictSet (A ++ (k, v) :: B) (ascii "oauth_signature")
        (generate_oauth_signature method u (A ++ (k, v) :: B) secret))
      secret (generate_oauth_signature method u (A ++ (k, v) :: B) secret)
      = true := by
  have hsigP : ∀ p ∈ A ++ (k, v) :: B, p.1 ≠ ascii "oauth_signature" := by
    intro p hp
    rcases List.mem_append.mp hp with h | h
    · exact hsig p (List.mem_append.mpr (Or.inl h))
    rcases List.mem_cons.mp h with rfl | h
    · exact hks
    · exact hsig p (List.mem_append.mpr (Or.inr h))
  have hsigP' : ∀ p ∈ A ++ (k, v') :: B, p.1 ≠ ascii "oauth_signature" := by
    intro p hp
    rcases List.mem_append.mp hp with h | h
    · exact hsig p (List.mem_append.mpr (Or.inl h))
    rcases List.mem_cons.mp h with rfl | h
    · exact hks
    · exact hsig p (List.mem_append.mpr (Or.inr h))
  have hkval : ValidB k := (hval (k, v) (List.mem_append.mpr (Or.inr (by simp)))).1
  have hvalP' : ValidParams (A ++ (k, v') :: B) := by
    intro p hp
    rcases List.mem_append.mp hp with h | h
    · exact hval p (List.mem_append.mpr (Or.inl h))
    rcases List.mem_cons.mp h with rfl | h
    · exact ⟨hkval, hv'⟩
    · exact hval p (List.mem_append.mpr (Or.inr (by simp [h])))
  refine ⟨?_, ?_, ?_, ?_⟩
  · intro h
    have := (signatureBase_same_method_inj hu hu hvalP' hval h).2
    exact update_not_perm hA hB hvv this
  · rw [verify_strip _ _ _ _ _ _ hsigP']
    simp
  · intro h
    have := (signatureBase_same_method_inj hu' hu hval hval h).1
    exact huu this
  · rw [verify_strip _ _ _ _ _ _ hsigP]
    rw [gen_method_upper _ _ _ hm]
    simp

/-- Witness for the amended C5 at a concrete signed launch: value change
`b → c`, URL change, and a case-only method change `POST → post`. -/
theorem oauth_tamper_detection_witness :
    signatureBase (ascii "POST") (ascii "http://t")
        ([] ++ (ascii "a", ascii "c") :: []) ≠
      signatureBase (ascii "POST") (ascii "http://t")
        ([] ++ (ascii "a", ascii "b") :: []) ∧
    (verify_oauth_signature (ascii "POST") (ascii "http://t")
        (dictSet ([] ++ (ascii "a", ascii "c") :: []) (ascii "oauth_signature")
          (generate_oauth_signature (ascii "POST") (ascii "http://t")
            ([] ++ (ascii "a", ascii "b") :: []) (ascii "s")))
        (ascii "s") (generate_oauth_signature (ascii "POST") (ascii "http://t")
          ([] ++ (ascii "a", ascii "b") :: []) (ascii "s")) = true ↔
      generate_oauth_signature (ascii "POST") (ascii "http://t")
          ([] ++ (ascii "a", ascii "c") :: []) (ascii "s") =
        generate_oauth_signature (ascii "POST") (ascii "http://t")
          ([] ++ (ascii "a", ascii "b") :: []) (ascii "s")) ∧
    signatureBase (ascii "POST") (ascii "http://u")
        ([] ++ (ascii "a", ascii "b") :: []) ≠
      signatureBase (ascii "POST") (ascii "http://t")
        ([] ++ (ascii "a", ascii "b") :: []) ∧
    verify_oauth_signature (ascii "post") (ascii "http://t")
      (dictSet ([] ++ (ascii "a", ascii "b") :: []) (ascii "oauth_signature")
        (generate_oauth_signature (ascii "POST") (ascii "http://t")
          ([] ++ (ascii "a", ascii "b") :: []) (ascii "s")))
      (ascii "s") (generate_oauth_signature (ascii "POST") (ascii "http://t")
        ([] ++ (ascii "a", ascii "b") :: []) (ascii "s")) = true :=
  oauth_tamper_detection (ascii "POST") (ascii "http://t") (ascii "http://u")
    [] [] (ascii "a") (ascii "b") (ascii "c") (ascii "s") (ascii "post")
    (by decide) (by decide) (by decide) (by decide) (by decide) (by decide)
    (by decide) (by decide) (by decide) (by decide) (by decide)

/-- Setting one key leaves lookups of other keys unchanged. -/
theorem dictGet_dictSet_ne : ∀ (ps : List Param) {kSet k : Bytes} (v : Bytes),
    kSet ≠ k → dictGet (dictSet ps kSet v) k = dictGet ps k
  | [], kSet, k, v => fun h => by
      simp [dictSet, dictGet, List.find?, h]
  | p :: ps, kSet, k, v => fun h => by
      by_cases hp : p.1 = kSet
      · simp only [dictSet, if_pos hp, dictGet, List.find?]
        rw [show (decide (kSet = k)) = false from by simp [h],
          show (decide (p.1 = k)) = false from by simp [hp, h]]
      · simp only [dictSet, if_neg hp, dictGet, List.find?]
        cases hd : decide (p.1 = k)
        · exact dictGet_dictSet_ne ps v h
        · rfl

/-- Merged custom keys always start with `custom_`. -/
theorem customKey_isPrefix (k : Bytes) :
    (ascii "custom_").isPrefixOf (customKey k) = true := by
  unfold customKey
  split
  · assumption
  · rw [List.isPrefixOf_iff_prefix]
    exact List.prefix_append _ _

/-- Merging custom parameters does not change lookups of keys that do not
start with `custom_`. -/
theorem dictGet_foldl_custom : ∀ (customs : List Param) (ps : List Param)
    (k : Bytes), (ascii "custom_").isPrefixOf k = false →
    dictGet (customs.foldl (fun acc kv => dictSet acc (customKey kv.1) kv.2) ps) k
      = dictGet ps k
  | [], ps, k => fun _ => rfl
  | kv :: customs, ps, k => fun h => by
      rw [List.foldl_cons, dictGet_foldl_custom customs _ k h,
        dictGet_dictSet_ne ps kv.2
          (fun he => by rw [← he, customKey_isPrefix kv.1] at h; simp at h)]

/-- No fixed parameter name starts with `custom_`, and none is
`oauth_signature`. -/
theorem fixedParamKeys_props : ∀ key ∈ fixedParamKeys,
    (ascii "custom_").isPrefixOf key = false ∧ key ≠ ascii "oauth_signature" := by
  decide

/-- Tokens produced by `str.split()` are nonempty. -/
theorem splitWsF_ne_nil : ∀ (n : Nat) (s : Bytes), ∀ tok ∈ splitWsF n s, tok ≠ []
  | 0, _ => by simp [splitWsF]
  | n + 1, [] => by simp [splitWsF]
  | n + 1, b :: r => by
      intro tok htok
      by_cases hb : wsByte b = true
      · exact splitWsF_ne_nil n r tok (by simpa [splitWsF, hb] using htok)
      · simp only [splitWsF, Bool.not_eq_true] at htok
        rw [if_neg (by simp [hb])] at htok
        rcases List.mem_cons.mp htok with rfl | h
        · simp
        · exact splitWsF_ne_nil n (dropTok r) tok h

/-- C10.  Merging custom parameters never changes a fixed parameter: every
custom entry is stored under a key beginning with `custom_`, no fixed
parameter name begins with `custom_` (nor is any of them `oauth_signature`),
so each fixed parameter of the built launch retains the value assembled from
the tool, course, and user data. -/
theorem custom_params_frame (tool : Tool) (course : Course) (user : User)
    (resourceLinkId resourceLinkTitle launchUrl outcomesUrl : Bytes)
    (customParams : List Param) (timestamp nonce : Bytes)
    (t : Bytes) (ts : List Bytes) (hsplit : pySplitWs user.name = t :: ts) :
    ∃ res, build_lti_launch_params tool course user resourceLinkId
        resourceLinkTitle launchUrl outcomesUrl customParams timestamp nonce
        = .ok res ∧
      (∀ kv ∈ customParams, (ascii "custom_").isPrefixOf (customKey kv.1) = true) ∧
      (∀ key ∈ fixedParamKeys, (ascii "custom_").isPrefixOf key = false) ∧
      (∀ key ∈ fixedParamKeys, dictGet res key =
        dictGet (fixedParams tool course user resourceLinkId resourceLinkTitle
          outcomesUrl timestamp nonce t ts) key) := by
  refine ⟨dictSet (customParams.foldl (fun ps kv => dictSet ps (customKey kv.1) kv.2)
      (fixedParams tool course user resourceLinkId resourceLinkTitle outcomesUrl
        timestamp nonce t ts))
    (ascii "oauth_signature")
    (generate_oauth_signature (ascii "POST") launchUrl
      (customParams.foldl (fun ps kv => dictSet ps (customKey kv.1) kv.2)
        (fixedParams tool course user resourceLinkId resourceLinkTitle outcomesUrl
          timestamp nonce t ts))
      tool.consumerSecret), ?_, fun kv _ => customKey_isPrefix kv.1,
    fun key hkey => (fixedParamKeys_props key hkey).1, fun key hkey => ?_⟩
  · unfold build_lti_launch_params
    rw [hsplit]
  · rw [dictGet_dictSet_ne _ _ (fun he => (fixedParamKeys_props key hkey).2 he.symm)]
    exact dictGet_foldl_custom customParams _ key (fixedParamKeys_props key hkey).1

/-- C7.  For a user whose name has at least one whitespace-delimited token,
the builder sets `lis_person_name_given` to the first token and
`lis_person_name_family` to the remaining tokens joined by one space; with a
single token the family name falls back to the full name. -/
theorem name_split_params (tool : Tool) (course : Course) (user : User)
    (resourceLinkId resourceLinkTitle launchUrl outcomesUrl : Bytes)
    (customParams : List Param) (timestamp nonce : Bytes)
    (t : Bytes) (ts : List Bytes) (hsplit : pySplitWs user.name = t :: ts) :
    ∃ res, build_lti_launch_params tool course user resourceLinkId
        resourceLinkTitle launchUrl outcomesUrl customParams timestamp nonce
        = .ok res ∧
      dictGet res (ascii "lis_person_name_given") = some t ∧
      dictGet res (ascii "lis_person_name_family") =
        some (if ts = [] then user.name else joinSep 32 ts) := by
  obtain ⟨res, hbuild, -, -, hfix⟩ := custom_params_frame tool course user
    resourceLinkId resourceLinkTitle launchUrl outcomesUrl customParams
    timestamp nonce t ts hsplit
  refine ⟨res, hbuild, ?_, ?_⟩
  · rw [hfix (ascii "lis_person_name_given") (by decide)]
    rfl
  · rw [hfix (ascii "lis_person_name_family") (by decide)]
    have hval : dictGet (fixedParams tool course user resourceLinkId
        resourceLinkTitle outcomesUrl timestamp nonce t ts)
        (ascii "lis_person_name_family") =
        some (if joinSep 32 ts = [] then user.name else joinSep 32 ts) := rfl
    rw [hval]
    cases ts with
    | nil => simp [joinSep]
    | cons t2 ts2 =>
      have ht2 : t2 ≠ [] := by
        have := splitWsF_ne_nil user.name.length user.name t2
        rw [show splitWsF user.name.length user.name = pySplitWs user.name from rfl,
          hsplit] at this
        exact this (by simp)
      have hne : joinSep 32 (t2 :: ts2) ≠ [] := by
        cases ts2 with
        | nil => simpa [joinSep] using ht2
        | cons t3 ts3 =>
          simp only [joinSep]
          cases t2 <;> simp
      simp [if_neg hne, hne]

/-- Witness for C7 at the spec's single-token name `Madonna`. -/
theorem name_split_params_witness :
    ∃ res, build_lti_launch_params ⟨ascii "key", ascii "secret"⟩
        ⟨ascii "1", ascii "CS101", ascii "Intro"⟩
        ⟨ascii "2", ascii "Madonna", ascii "m@x.org", ascii "student"⟩
        (ascii "rl-1") (ascii "Quiz") (ascii "http://t/launch") (ascii "http://p/outcomes")
        [] (ascii "111") (ascii "n-1") = .ok res ∧
      dictGet res (ascii "lis_person_name_given") = some (ascii "Madonna") ∧
      dictGet res (ascii "lis_person_name_family") =
        some (if ([] : List Bytes) = [] then ascii "Madonna" else joinSep 32 []) :=
  name_split_params ⟨ascii "key", ascii "secret"⟩
    ⟨ascii "1", ascii "CS101", ascii "Intro"⟩
    ⟨ascii "2", ascii "Madonna", ascii "m@x.org", ascii "student"⟩
    (ascii "rl-1") (ascii "Quiz") (ascii "http://t/launch") (ascii "http://p/outcomes")
    [] (ascii "111") (ascii "n-1") (ascii "Madonna") [] (by decide)

/-- C8 counterexample.  With an empty user email — a missing required
collaborator field — the builder neither fails fast nor raises: it returns a
parameter set whose `lis_person_contact_email_primary` is the silently
emitted empty value. -/
theorem builder_emits_empty_email :
    (build_lti_launch_params ⟨ascii "k", ascii "s"⟩
        ⟨ascii "1", ascii "C", ascii "N"⟩
        ⟨ascii "2", ascii "Ada", ascii "", ascii "student"⟩
        (ascii "rl") (ascii "T") (ascii "http://t") (ascii "http://o")
        [] (ascii "111") (ascii "n1")).map
      (fun res => dictGet res (ascii "lis_person_contact_email_primary"))
      = .ok (some []) := rfl

/-- C8 amended.  The builder performs no validation of collaborator fields:
a name without any whitespace-delimited token makes it raise an uncaught
`IndexError` (not a typed validation error), while other empty fields — the
user email and the consumer key here — are silently emitted as empty
parameter values in a successfully returned parameter set. -/
theorem builder_no_validation (tool : Tool) (course : Course)
    (user1 user2 : User)
    (resourceLinkId resourceLinkTitle launchUrl outcomesUrl : Bytes)
    (customParams : List Param) (timestamp nonce : Bytes)
    (h1 : pySplitWs user1.name = [])
    (t : Bytes) (ts : List Bytes) (h2 : pySplitWs user2.name = t :: ts)
    (hemail : user2.email = []) (hkey : tool.consumerKey = []) :
    build_lti_launch_params tool course user1 resourceLinkId resourceLinkTitle
        launchUrl outcomesUrl customParams timestamp nonce = .error () ∧
    ∃ res, build_lti_launch_params tool course user2 resourceLinkId
        resourceLinkTitle launchUrl outcomesUrl customParams timestamp nonce
        = .ok res ∧
      dictGet res (ascii "lis_person_contact_email_primary") = some [] ∧
      dictGet res (ascii "oauth_consumer_key") = some [] := by
  constructor
  · unfold build_lti_launch_params
    rw [h1]
  · obtain ⟨res, hbuild, -, -, hfix⟩ := custom_params_frame tool course user2
      resourceLinkId resourceLinkTitle launchUrl outcomesUrl customParams
      timestamp nonce t ts h2
    refine ⟨res, hbuild, ?_, ?_⟩
    · rw [hfix (ascii "lis_person_contact_email_primary") (by decide),
        show dictGet (fixedParams tool course user2 resourceLinkId
          resourceLinkTitle outcomesUrl timestamp nonce t ts)
          (ascii "lis_person_contact_email_primary") = some user2.email from rfl,
        hemail]
    · rw [hfix (ascii "oauth_consumer_key") (by decide),
        show dictGet (fixedParams tool course user2 resourceLinkId
          resourceLinkTitle outcomesUrl timestamp nonce t ts)
          (ascii "oauth_consumer_key") = some tool.consumerKey from rfl,
        hkey]

/-- Witness for the amended C8: an all-whitespace name raises; an empty email
and consumer key are emitted as empty values. -/
theorem builder_no_validation_witness :
    build_lti_launch_params ⟨[], ascii "s"⟩ ⟨ascii "1", ascii "C", ascii "N"⟩
        ⟨ascii "2", ascii "  ", ascii "e@x", ascii "student"⟩
        (ascii "rl") (ascii "T") (ascii "http://t") (ascii "http://o")
        [] (ascii "111") (ascii "n1") = .error () ∧
    ∃ res, build_lti_launch_params ⟨[], ascii "s"⟩ ⟨ascii "1", ascii "C", ascii "N"⟩
        ⟨ascii "2", ascii "Ada", [], ascii "student"⟩
        (ascii "rl") (ascii "T") (ascii "http://t") (ascii "http://o")
        [] (ascii "111") (ascii "n1") = .ok res ∧
      dictGet res (ascii "lis_person_contact_email_primary") = some [] ∧
      dictGet res (ascii "oauth_consumer_key") = some [] :=
  builder_no_validation ⟨[], ascii "s"⟩ ⟨ascii "1", ascii "C", ascii "N"⟩
    ⟨ascii "2", ascii "  ", ascii "e@x", ascii "student"⟩
    ⟨ascii "2", ascii "Ada", [], ascii "student"⟩
    (ascii "rl") (ascii "T") (ascii "http://t") (ascii "http://o")
    [] (ascii "111") (ascii "n1") (by decide) (ascii "Ada") [] (by decide)
    (by decide) (by decide)

/-- C9.  The outcomes client's single grade-push POST (never retried) turns a
network exception into the typed `HTTPException(500)` failure carrying the
exception text — handled by the framework, not an unhandled crash — and a
non-200 response into a failure result carrying the raw response body. -/
theorem send_grade_failure (e : Bytes) (resp : HttpResponse)
    (hstatus : resp.status ≠ 200) :
    send_grade (.error e) = .error (ascii "Failed to send grade: " ++ e) ∧
    send_grade (.ok resp) = .ok (false, resp.text) := by
  refine ⟨rfl, ?_⟩
  unfold send_grade
  simp [hstatus]

/-- Witness for C9 at a connection failure and a 500 response. -/
theorem send_grade_failure_witness :
    send_grade (.error (ascii "connection refused")) =
      .error (ascii "Failed to send grade: " ++ ascii "connection refused") ∧
    send_grade (.ok ⟨500, ascii "Internal Server Error"⟩) =
      .ok (false, ascii "Internal Server Error") :=
  send_grade_failure (ascii "connection refused")
    ⟨500, ascii "Internal Server Error"⟩ (by decide)

/-- Witness for C10 at a concrete launch with the custom parameter
`level = 5` and the name `Diana Prince`. -/
theorem custom_params_frame_witness :
    ∃ res, build_lti_launch_params ⟨ascii "key", ascii "secret"⟩
        ⟨ascii "1", ascii "CS101", ascii "Intro"⟩
        ⟨ascii "2", ascii "Diana Prince", ascii "d@x.org", ascii "student"⟩
        (ascii "rl-1") (ascii "Quiz") (ascii "http://t/launch")
        (ascii "http://p/outcomes") [(ascii "level", ascii "5")]
        (ascii "111") (ascii "n-1") = .ok res ∧
      (∀ kv ∈ [(ascii "level", ascii "5")],
        (ascii "custom_").isPrefixOf (customKey kv.1) = true) ∧
      (∀ key ∈ fixedParamKeys, (ascii "custom_").isPrefixOf key = false) ∧
      (∀ key ∈ fixedParamKeys, dictGet res key =
        dictGet (fixedParams ⟨ascii "key", ascii "secret"⟩
          ⟨ascii "1", ascii "CS101", ascii "Intro"⟩
          ⟨ascii "2", ascii "Diana Prince", ascii "d@x.org", ascii "student"⟩
          (ascii "rl-1") (ascii "Quiz") (ascii "http://p/outcomes")
          (ascii "111") (ascii "n-1") (ascii "Diana") [ascii "Prince"]) key) :=
  custom_params_frame ⟨ascii "key", ascii "secret"⟩
    ⟨ascii "1", ascii "CS101", ascii "Intro"⟩
    ⟨ascii "2", ascii "Diana Prince", ascii "d@x.org", ascii "student"⟩
    (ascii "rl-1") (ascii "Quiz") (ascii "http://t/launch")
    (ascii "http://p/outcomes") [(ascii "level", ascii "5")]
    (ascii "111") (ascii "n-1") (ascii "Diana") [ascii "Prince"] (by decide)
